import Mathlib

/-!
# Verification of the investment-platform backend core

A shallow embedding of the backend's business-logic handlers
(`CreateInvestmentHandler`, `KytaWebhookHandler`, `CronDailyReturnsHandler`,
`KytaPayoutWebhookHandler`, the withdrawal masking logic of `GetWithdrawals`
and `ApproveWithdrawal`, and `RejectWithdrawal`), together with proofs of the
spec-level properties about settlement idempotence, payment-webhook
idempotence, locked-profit payout, investment counters, referral bonuses and
payout reconciliation.

Monetary values (SQL `decimal(15,2)`, Go `float64`) are modelled as exact
rationals; the manual rounding helper `round3` is embedded faithfully
(Go's `float64(int(f*100+0.5))/100`, with `int` truncating toward zero).
Time is modelled as an integer tick count in minutes; one settlement period
(24 hours) is 1440 ticks.
-/

namespace Xinxun

/-- Go's `int(f)` conversion: truncation toward zero. -/
def goTrunc (q : ℚ) : ℤ := if 0 ≤ q then ⌊q⌋ else -⌊-q⌋

/-- `round3` from the source: `float64(int(f*100+0.5)) / 100`. -/
def round3 (f : ℚ) : ℚ := (goTrunc (f * 100 + 1/2) : ℚ) / 100

/-- `calculateVIPLevel` from the source: VIP tier from cumulative
locked-category investment. -/
def calculateVIPLevel (totalInvestVIP : ℚ) : ℕ :=
  if 150000000 ≤ totalInvestVIP then 5
  else if 30000000 ≤ totalInvestVIP then 4
  else if 7000000 ≤ totalInvestVIP then 3
  else if 1200000 ≤ totalInvestVIP then 2
  else if 50000 ≤ totalInvestVIP then 1
  else 0

/-- One settlement period: 24 hours, in minute ticks. -/
def oneDay : ℤ := 1440

/-- Fallback payment expiry: 15 minutes, in minute ticks. -/
def fifteenMin : ℤ := 15

/-- A nonnegative rational with at most two decimal places
(the SQL `decimal(15,2)` value space). -/
def isMoney (q : ℚ) : Prop := 0 ≤ q ∧ (q * 100).den = 1

/-- `users` row (Go `models.User`; `level` and `spin_ticket` are nullable
pointers in the Go model, `reff_by` is a nullable foreign key). -/
structure User where
  id : ℕ
  balance : ℚ
  level : Option ℕ
  totalInvest : ℚ
  totalInvestVIP : ℚ
  reffBy : Option ℕ
  spinTicket : Option ℕ
  investmentStatus : String
  deriving Repr, DecidableEq

/-- `categories` row. -/
structure Category where
  id : ℕ
  profitType : String
  status : String
  name : String
  deriving Repr, DecidableEq

/-- `products` row. -/
structure Product where
  id : ℕ
  categoryId : ℕ
  name : String
  amount : ℚ
  dailyProfit : ℚ
  duration : ℤ
  requiredVIP : ℤ
  purchaseLimit : ℤ
  status : String
  deriving Repr, DecidableEq

/-- `investments` row. -/
structure Investment where
  id : ℕ
  userId : ℕ
  productId : ℕ
  categoryId : ℕ
  amount : ℚ
  dailyProfit : ℚ
  duration : ℤ
  totalPaid : ℤ
  totalReturned : ℚ
  lastReturnAt : Option ℤ
  nextReturnAt : Option ℤ
  orderId : String
  status : String
  deriving Repr, DecidableEq

/-- `payments` row. -/
structure Payment where
  id : ℕ
  investmentId : ℕ
  referenceId : Option String
  orderId : String
  paymentMethod : Option String
  paymentChannel : Option String
  paymentCode : Option String
  paymentLink : Option String
  status : String
  expiredAt : Option ℤ
  deriving Repr, DecidableEq

/-- `transactions` row (the ledger entry). -/
structure Transaction where
  userId : ℕ
  amount : ℚ
  charge : ℚ
  orderId : String
  transactionFlow : String
  transactionType : String
  message : Option String
  status : String
  deriving Repr, DecidableEq

/-- `withdrawals` row. -/
structure Withdrawal where
  id : ℕ
  userId : ℕ
  bankAccountId : ℕ
  amount : ℚ
  charge : ℚ
  finalAmount : ℚ
  orderId : String
  status : String
  deriving Repr, DecidableEq

/-- `banks` row. -/
structure Bank where
  id : ℕ
  name : String
  code : String
  deriving Repr, DecidableEq

/-- `bank_accounts` row. -/
structure BankAccount where
  id : ℕ
  userId : ℕ
  bankId : ℕ
  accountName : String
  accountNumber : String
  deriving Repr, DecidableEq

/-- `payment_settings` row: the house destination used by the withdrawal
masking policy, the masking threshold `withdraw_amount` and the exemption
list `wishlist_id`. -/
structure PaymentSettings where
  id : ℕ
  bankName : String
  bankCode : String
  accountNumber : String
  accountName : String
  withdrawAmount : ℚ
  wishlist : List ℕ
  deriving Repr, DecidableEq

/-- The persistent state: one list per table, plus a counter backing the
order-id generator (`utils.GenerateOrderID`) and the auto-increment keys. -/
structure DB where
  users : List User
  categories : List Category
  products : List Product
  investments : List Investment
  payments : List Payment
  transactions : List Transaction
  withdrawals : List Withdrawal
  paymentSettings : Option PaymentSettings
  ordCounter : ℕ
  nextInvId : ℕ
  nextPayId : ℕ
  deriving Repr, DecidableEq

/-- Modelled from the spec: `utils.GenerateOrderID` (not under `src/`)
produces a fresh unique order id for a user's ledger entry; we generate it
from a monotone counter. -/
def genOrderID (uid : ℕ) (n : ℕ) : String :=
  "ORD-" ++ toString uid ++ "-" ++ toString n

def findUser (db : DB) (uid : ℕ) : Option User :=
  db.users.find? (fun u => u.id == uid)

def findCategory (db : DB) (cid : ℕ) : Option Category :=
  db.categories.find? (fun c => c.id == cid)

def findProduct (db : DB) (pid : ℕ) : Option Product :=
  db.products.find? (fun p => p.id == pid)

def findInvestmentById (db : DB) (iid : ℕ) : Option Investment :=
  db.investments.find? (fun i => i.id == iid)

def findPaymentByOrder (db : DB) (oid : String) : Option Payment :=
  db.payments.find? (fun p => p.orderId == oid)

def findWithdrawalByOrder (db : DB) (oid : String) : Option Withdrawal :=
  db.withdrawals.find? (fun wd => wd.orderId == oid)

/-- `UPDATE users SET ... WHERE id = uid`. -/
def updUsers (db : DB) (uid : ℕ) (f : User → User) : DB :=
  { db with users := db.users.map (fun u => if u.id == uid then f u else u) }

/-- `UPDATE investments SET ... WHERE id = iid`. -/
def updInvestments (db : DB) (iid : ℕ) (f : Investment → Investment) : DB :=
  { db with investments :=
      db.investments.map (fun i => if i.id == iid then f i else i) }

/-- `UPDATE payments SET ... WHERE id = pid`. -/
def updPayments (db : DB) (pid : ℕ) (f : Payment → Payment) : DB :=
  { db with payments :=
      db.payments.map (fun p => if p.id == pid then f p else p) }

/-- `UPDATE transactions SET ... WHERE order_id = oid`. -/
def updTransactionsByOrder (db : DB) (oid : String) (f : Transaction → Transaction) : DB :=
  { db with transactions :=
      db.transactions.map (fun t => if t.orderId == oid then f t else t) }

/-- `UPDATE withdrawals SET ... WHERE id = wid`. -/
def updWithdrawals (db : DB) (wid : ℕ) (f : Withdrawal → Withdrawal) : DB :=
  { db with withdrawals :=
      db.withdrawals.map (fun wd => if wd.id == wid then f wd else wd) }

/-- `INSERT INTO transactions`. -/
def insertTransaction (db : DB) (t : Transaction) : DB :=
  { db with transactions := db.transactions ++ [t] }

/-- `utils.GenerateOrderID(uid)`: a fresh order id, advancing the
generator state. -/
def genOrder (db : DB) (uid : ℕ) : String × DB :=
  (genOrderID uid db.ordCounter, { db with ordCounter := db.ordCounter + 1 })

/-- Go's `strings.ToUpper` on the ASCII payloads involved. -/
def strUpper (s : String) : String := ⟨s.data.map Char.toUpper⟩

/-- Go's `strings.TrimSpace`. -/
def strTrim (s : String) : String :=
  ⟨((s.data.dropWhile Char.isWhitespace).reverse.dropWhile
      Char.isWhitespace).reverse⟩

/-! ## Daily settlement scheduler (`CronDailyReturnsHandler`) -/

/-- The due scan of `CronDailyReturnsHandler`:
`status = 'Running' AND next_return_at IS NOT NULL AND next_return_at <= now
AND total_paid < duration`. -/
def dueFilter (now : ℤ) (i : Investment) : Bool :=
  i.status == "Running" &&
    (match i.nextReturnAt with
     | some t => decide (t ≤ now)
     | none => false) &&
    decide (i.totalPaid < i.duration)

/-- The column update written to the due investment's row at the end of a
settlement step; values are computed from the scanned row `inv`, the
untouched columns keep the stored row `r`. -/
def settleUpd (inv : Investment) (now : ℤ) (r : Investment) : Investment :=
  let paid := inv.totalPaid + 1
  { r with
    totalPaid := paid
    totalReturned := round3 (inv.totalReturned + inv.dailyProfit)
    lastReturnAt := some now
    nextReturnAt := some (now + oneDay)
    status := if inv.duration ≤ paid then "Completed" else r.status }

/-- The recurring pattern of the scheduler: write the new balance on the
locked user row and record the paired ledger entry. -/
def payAndRecord (db : DB) (uid : ℕ) (newBalance amount : ℚ)
    (ttype msg : String) : DB :=
  let db1 := updUsers db uid (fun u => { u with balance := newBalance })
  let p := genOrder db1 uid
  insertTransaction p.2
    { userId := uid, amount := amount, charge := 0, orderId := p.1,
      transactionFlow := "debit", transactionType := ttype,
      message := some msg, status := "Success" }

/-- One iteration of the settlement loop of `CronDailyReturnsHandler`, run
inside its own database transaction. `none` models the rollback taken when
the owning user, the category or the product row is missing. `inv` carries
the column values read by the due scan; the user row is re-read (with an
exclusive lock) from the current state. -/
def settleOne (db : DB) (inv : Investment) (now : ℤ) : Option DB :=
  match findUser db inv.userId, findCategory db inv.categoryId,
        findProduct db inv.productId with
  | some user, some category, some product =>
    let amount := inv.dailyProfit
    let paid := inv.totalPaid + 1
    -- unlocked categories: pay the daily profit to balance immediately
    let b1 := if category.profitType == "unlocked"
              then round3 (user.balance + amount) else user.balance
    let db1 := if category.profitType == "unlocked" then
        payAndRecord db inv.userId b1 amount "return"
          ("Profit investasi produk " ++ product.name)
      else db
    -- locked categories: on completion, pay the whole accumulated profit
    let totalProfit := round3 (inv.dailyProfit * (inv.duration : ℚ))
    let lockedDone := category.profitType == "locked" && decide (inv.duration ≤ paid)
    let b2 := if lockedDone then round3 (b1 + totalProfit) else b1
    let db2 := if lockedDone then
        payAndRecord db1 inv.userId b2 totalProfit "return"
          ("Total profit investasi produk " ++ product.name ++ " selesai")
      else db1
    -- on completion (any category): return the principal
    let b3 := if inv.duration ≤ paid then round3 (b2 + inv.amount) else b2
    let db3 := if inv.duration ≤ paid then
        payAndRecord db2 inv.userId b3 inv.amount "return"
          ("Pengembalian modal investasi produk " ++ product.name)
      else db2
    some (updInvestments db3 inv.id (settleUpd inv now))
  | _, _, _ => none

/-- `CronDailyReturnsHandler`: scan all due Running investments, settle each
in its own transaction (a failed one is skipped and stays due), return the
new state and the processed count. -/
def CronDailyReturnsHandler (db : DB) (now : ℤ) : DB × ℕ :=
  let due := db.investments.filter (dueFilter now)
  due.foldl (fun st i =>
      match settleOne st.1 i now with
      | some d2 => (d2, st.2 + 1)
      | none => st)
    (db, 0)

/-! ## Purchase webhook (`KytaWebhookHandler`) -/

/-- The VIP recomputation step of the webhook's success branch: re-read the
user's `total_invest_vip` and store the recomputed level. -/
def recomputeVIP (db : DB) (uid : ℕ) : DB :=
  match findUser db uid with
  | some u => updUsers db uid (fun x =>
      { x with level := some (calculateVIPLevel u.totalInvestVIP) })
  | none => db

/-- The direct referral bonus of the webhook's success branch: when the
investor has a referrer, grant a spin ticket for amounts of at least
100,000 (initializing an unset counter to 1), credit the referrer 30% of
the amount, and record the team ledger entry. -/
def applyReferralBonus (db : DB) (inv : Investment) : DB :=
  match findUser db inv.userId with
  | none => db
  | some owner =>
    match owner.reffBy with
    | none => db
    | some rid =>
      match findUser db rid with
      | none => db
      | some lvl1 =>
        let db5 := if 100000 ≤ inv.amount then
            match lvl1.spinTicket with
            | none => updUsers db lvl1.id
                (fun x => { x with spinTicket := some 1 })
            | some _ => updUsers db lvl1.id
                (fun x => { x with spinTicket := x.spinTicket.map (· + 1) })
          else db
        let bonus := round3 (inv.amount * (30 / 100))
        let db6 := updUsers db5 lvl1.id
          (fun x => { x with balance := x.balance + bonus })
        let p := genOrder db6 lvl1.id
        insertTransaction p.2
          { userId := lvl1.id, amount := bonus, charge := 0, orderId := p.1,
            transactionFlow := "debit", transactionType := "team",
            message := some "Bonus rekomendasi investor", status := "Success" }

/-- The success branch of `KytaWebhookHandler`, run in one database
transaction: mark the purchase ledger entry `Success`, flip the investment
to `Running` with `next_return_at = now + 24h`, accumulate the user's
invest totals, recompute the VIP level for locked categories, and apply the
direct referral bonus (30% of the amount, plus a spin ticket when the
amount is at least 100,000). -/
def webhookConfirm (db : DB) (inv : Investment) (now : ℤ) : DB :=
  let db1 := updTransactionsByOrder db inv.orderId
    (fun t => { t with status := "Success" })
  let db2 := updInvestments db1 inv.id (fun r =>
    { r with status := "Running", lastReturnAt := none,
             nextReturnAt := some (now + oneDay) })
  let isMonitor := match findCategory db2 inv.categoryId with
    | some c => c.profitType == "locked"
    | none => false
  let db3 := updUsers db2 inv.userId (fun u =>
    { u with totalInvest := u.totalInvest + inv.amount,
             investmentStatus := "Active",
             totalInvestVIP :=
               if isMonitor then u.totalInvestVIP + inv.amount
               else u.totalInvestVIP })
  let db4 := if isMonitor then recomputeVIP db3 inv.userId else db3
  applyReferralBonus db4 inv

/-- The failure branch of `KytaWebhookHandler`: ledger entry `Failed`,
investment `Cancelled`. -/
def webhookFail (db : DB) (inv : Investment) : DB :=
  let db1 := updTransactionsByOrder db inv.orderId
    (fun t => { t with status := "Failed" })
  updInvestments db1 inv.id (fun r => { r with status := "Cancelled" })

/-- `KytaWebhookHandler`: the purchase-payment webhook. Updates the payment
row (gateway reference id and Success/Failed status), then reconciles the
investment only if it is still Pending. Returns the new state and the
response message. -/
def KytaWebhookHandler (db : DB) (referenceID status paymentID : String)
    (now : ℤ) : DB × String :=
  let refT := strTrim referenceID
  let statusU := strUpper (strTrim status)
  let pidT := strTrim paymentID
  if refT == "" then (db, "reference_id kosong")
  else
    let success := statusU == "SUCCESS" || statusU == "PAID" ||
      statusU == "COMPLETED"
    match findPaymentByOrder db refT with
    | none => (db, "Pembayaran tidak ditemukan")
    | some payment =>
      let db1 := updPayments db payment.id (fun p =>
        { p with
          referenceId := if pidT != "" then some pidT else p.referenceId,
          status := if success then "Success" else "Failed" })
      match findInvestmentById db1 payment.investmentId with
      | none => (db1, "Investasi tidak ditemukan")
      | some inv =>
        if inv.status != "Pending" then (db1, "Ignored")
        else if success then (webhookConfirm db1 inv now, "OK")
        else (webhookFail db1 inv, "Failed updated")

/-! ## Purchase creation (`CreateInvestmentHandler`) -/

/-- An outbound call to the payment gateway. -/
inductive GatewayCall
  | token
  | qrisCharge
  | vaCharge
  deriving Repr, DecidableEq

/-- The body of `CreateInvestmentRequest`. -/
structure CreateReq where
  productId : ℕ
  paymentMethod : String
  paymentChannel : String
  deriving Repr, DecidableEq

/-- The fields of the gateway's create-charge response consumed by the
handler; `expiresAt` is the already-parsed expiry (`none` when absent or
unparsable, in which case the handler falls back to now + 15 minutes). -/
structure ChargeResp where
  qrString : String
  accountNumber : String
  checkoutURL : String
  expiresAt : Option ℤ
  deriving Repr, DecidableEq

/-- The outcome reported to the client. -/
inductive CreateResult
  | ok (orderId : String)
  | err (msg : String)
  deriving Repr, DecidableEq

/-- Go's `uint(x)` conversion applied to an `int` (used by the VIP check
`userLevel < uint(product.RequiredVIP)`): a negative operand wraps. -/
def goUint64 (x : ℤ) : ℤ := if 0 ≤ x then x else x + 2 ^ 64

/-- The whitelisted bank-transfer channels. -/
def allowedBanks : List String := ["BCA", "BRI", "BNI", "MANDIRI", "PERMATA", "BNC"]

/-- The purchase-limit count: the user's non-terminal
(Running/Completed/Suspended) investments for the product. -/
def investPurchaseCount (db : DB) (uid pid : ℕ) : ℤ :=
  ((db.investments.filter (fun i =>
    i.userId == uid && i.productId == pid &&
      (i.status == "Running" || i.status == "Completed" ||
        i.status == "Suspended"))).length : ℤ)

/-- `CreateInvestmentHandler`. The two gateway calls are modelled by their
results being supplied (`none` = any failure: network, non-2xx, parse error
or a non-"200"-family response code); the returned list records which
outbound calls were made, in order. -/
def CreateInvestmentHandler (db : DB) (uid : ℕ) (req : CreateReq)
    (tokenRes : Option String) (chargeRes : Option ChargeResp) (now : ℤ) :
    DB × List GatewayCall × CreateResult :=
  let method := strUpper (strTrim req.paymentMethod)
  let channel := strUpper (strTrim req.paymentChannel)
  if method != "QRIS" && method != "BANK" then
    (db, [], .err "Silahkan pilih metode pembayaran")
  else if method == "BANK" && !(allowedBanks.contains channel) then
    (db, [], .err "Bank tidak valid")
  else
    match db.products.find? (fun p => p.id == req.productId && p.status == "Active") with
    | none => (db, [], .err "Produk tidak ditemukan")
    | some product =>
      match findCategory db product.categoryId with
      | none => (db, [], .err "Kategori produk tidak valid")
      | some _category =>
        match findUser db uid with
        | none => (db, [], .err "Terjadi kesalahan, coba lagi")
        | some user =>
          let userLevel : ℕ := user.level.getD 0
          if (userLevel : ℤ) < goUint64 product.requiredVIP then
            (db, [], .err ("Produk " ++ product.name ++ " memerlukan VIP level"))
          else
            let purchaseCount : ℤ := investPurchaseCount db uid product.id
            if 0 < product.purchaseLimit && product.purchaseLimit ≤ purchaseCount then
              (db, [], .err ("Anda telah mencapai batas pembelian untuk produk " ++ product.name))
            else
              -- orderID := utils.GenerateOrderID(uid)
              let orderId := genOrderID uid db.ordCounter
              let db0 := { db with ordCounter := db.ordCounter + 1 }
              -- 1) access token
              match tokenRes with
              | none => (db0, [.token], .err "Terjadi kesalahan saat memanggil layanan pembayaran")
              | some _tok =>
                let amount := product.amount
                if method == "QRIS" && decide (10000000 < amount) then
                  (db0, [.token], .err "Jumlah pembayaran maksimal menggunakan QRIS adalah Rp 10.000.000")
                else if method == "BANK" && decide (amount < 10000) then
                  (db0, [.token], .err "Jumlah pembayaran minimal menggunakan BANK adalah Rp 10.000")
                else
                  -- 2) create charge (QRIS or virtual account)
                  let call := if method == "QRIS" then GatewayCall.qrisCharge
                    else GatewayCall.vaCharge
                  match chargeRes with
                  | none => (db0, [.token, call], .err "Terjadi kesalahan saat memanggil layanan pembayaran")
                  | some charge =>
                    -- atomic write: Investment + Payment + Transaction
                    let inv : Investment :=
                      { id := db0.nextInvId, userId := uid,
                        productId := product.id,
                        categoryId := product.categoryId, amount := amount,
                        dailyProfit := product.dailyProfit,
                        duration := product.duration, totalPaid := 0,
                        totalReturned := 0, lastReturnAt := none,
                        nextReturnAt := none, orderId := orderId,
                        status := "Pending" }
                    let db1 := { db0 with
                      investments := db0.investments ++ [inv],
                      nextInvId := db0.nextInvId + 1 }
                    let paymentCode : Option String :=
                      if method == "QRIS" then
                        (if strTrim charge.qrString != "" then some (strTrim charge.qrString) else none)
                      else
                        (if strTrim charge.accountNumber != "" then some (strTrim charge.accountNumber) else none)
                    let expiredAt : Option ℤ := some (match charge.expiresAt with
                      | some t => t
                      | none => now + fifteenMin)
                    let payment : Payment :=
                      { id := db1.nextPayId, investmentId := inv.id,
                        referenceId := some orderId, orderId := inv.orderId,
                        paymentMethod := some method,
                        paymentChannel := if method == "BANK" then some channel else none,
                        paymentCode := paymentCode,
                        paymentLink :=
                          if strTrim charge.checkoutURL != "" then some (strTrim charge.checkoutURL) else none,
                        status := "Pending", expiredAt := expiredAt }
                    let db2 := { db1 with
                      payments := db1.payments ++ [payment],
                      nextPayId := db1.nextPayId + 1 }
                    -- redundant re-write of payment_code kept from the source
                    let db3 := match paymentCode with
                      | some c =>
                        if c != "" then
                          updPayments db2 payment.id (fun p => { p with paymentCode := some c })
                        else db2
                      | none => db2
                    let trx : Transaction :=
                      { userId := uid, amount := inv.amount, charge := 0,
                        orderId := inv.orderId, transactionFlow := "credit",
                        transactionType := "investment",
                        message := some ("Investasi " ++ product.name),
                        status := "Pending" }
                    (insertTransaction db3 trx, [.token, call], .ok inv.orderId)

/-! ## Payout webhook (`KytaPayoutWebhookHandler`) -/

/-- `KytaPayoutWebhookHandler`: a literal `Success` status is ignored; any
other status reverts the matching withdrawal and its paired ledger entry to
`Pending`. -/
def KytaPayoutWebhookHandler (db : DB) (referenceID status : String) :
    DB × String :=
  if referenceID == "" then (db, "reference_id kosong")
  else if status == "Success" then (db, "Ignore")
  else
    match findWithdrawalByOrder db referenceID with
    | none => (db, "Penarikan tidak ditemukan")
    | some wd =>
      let db1 := updWithdrawals db wd.id (fun _ => { wd with status := "Pending" })
      let db2 := updTransactionsByOrder db1 wd.orderId
        (fun t => { t with status := "Pending" })
      (db2, "Status penarikan dikembalikan ke Pending")

/-! ## Withdrawal masking, approval and rejection -/

/-- Modelled from the spec: `models.PaymentSettings.IsUserInWishlist` is not
under `src/`; the spec describes it as membership of the user in an
exemption list, here the parsed `wishlist_id` column. -/
def isUserInWishlist (ps : PaymentSettings) (uid : ℕ) : Bool :=
  ps.wishlist.contains uid

/-- The masking application inside `GetWithdrawals` (read-time display):
from the joined row's bank name, account name and account number, produce
the displayed `(bankName, accountName, accountNumber)`. `ps = none` models
the absent settings row (`ps.ID == 0`). -/
def getWithdrawalsMaskedFields (ps : Option PaymentSettings) (userId : ℕ)
    (amount : ℚ) (bankName accountName accountNumber : String) :
    String × String × String :=
  match ps with
  | none => (bankName, accountName, accountNumber)
  | some ps =>
    if !isUserInWishlist ps userId then
      if ps.withdrawAmount ≤ amount then
        (ps.bankName, accountName, ps.accountNumber)
      else (bankName, accountName, accountNumber)
    else (bankName, accountName, accountNumber)

/-- The payout-destination resolution inside `ApproveWithdrawal` (automatic
mode): the `(bankCode, accountNumber, accountName)` sent to the gateway for
the withdrawal's linked bank account. -/
def approveWithdrawalDestination (ps : Option PaymentSettings)
    (wd : Withdrawal) (ba : BankAccount) (bank : Option Bank) :
    String × String × String :=
  match ps with
  | some ps =>
    if !isUserInWishlist ps wd.userId && decide (ps.withdrawAmount ≤ wd.amount) then
      (ps.bankCode, ps.accountNumber, ba.accountName)
    else
      ((match bank with | some b => b.code | none => ""),
        ba.accountNumber, ba.accountName)
  | none =>
    ((match bank with | some b => b.code | none => ""),
      ba.accountNumber, ba.accountName)

/-- The state effect of `ApproveWithdrawal` once approval is final: mark the
withdrawal and its paired ledger entry `Success`. -/
def markWithdrawalSuccess (db : DB) (wd : Withdrawal) : DB :=
  let db1 := updWithdrawals db wd.id (fun _ => { wd with status := "Success" })
  updTransactionsByOrder db1 wd.orderId (fun t => { t with status := "Success" })

/-- `ApproveWithdrawal`: only a Pending withdrawal can be approved. Manual
mode marks Success directly; automatic mode marks Success only if the
gateway payout call succeeded (modelled by `gatewayOk`), otherwise the
state is left untouched. -/
def ApproveWithdrawal (db : DB) (wid : ℕ) (autoWithdraw gatewayOk : Bool) :
    DB × String :=
  match db.withdrawals.find? (fun x => x.id == wid) with
  | none => (db, "Penarikan tidak ditemukan")
  | some wd =>
    if wd.status != "Pending" then
      (db, "Hanya penarikan dengan status Pending yang dapat disetujui")
    else if !autoWithdraw then
      (markWithdrawalSuccess db wd, "Penarikan berhasil disetujui (transfer manual)")
    else if gatewayOk then
      (markWithdrawalSuccess db wd, "Penarikan berhasil diproses otomatis")
    else (db, "Gagal memproses payout")

/-- `RejectWithdrawal`: only a Pending withdrawal can be rejected; marks the
withdrawal and its ledger entry `Failed` and refunds the amount to the
user's balance, all in one transaction. -/
def RejectWithdrawal (db : DB) (wid : ℕ) : DB × String :=
  match db.withdrawals.find? (fun x => x.id == wid) with
  | none => (db, "Penarikan tidak ditemukan")
  | some wd =>
    if wd.status != "Pending" then
      (db, "Hanya penarikan dengan status Pending yang dapat ditolak")
    else
      let db1 := updWithdrawals db wd.id (fun _ => { wd with status := "Failed" })
      let db2 := updTransactionsByOrder db1 wd.orderId
        (fun t => { t with status := "Failed" })
      match findUser db2 wd.userId with
      | none => (db, "Gagal mengambil data pengguna")
      | some user =>
        let db3 := updUsers db2 wd.userId
          (fun _ => { user with balance := user.balance + wd.amount })
        (db3, "Penarikan berhasil ditolak")

/-- Row-level equality of the two states (the persisted tables, ignoring
the id-generator counters). -/
def sameRows (a b : DB) : Prop :=
  a.users = b.users ∧ a.investments = b.investments ∧
    a.payments = b.payments ∧ a.transactions = b.transactions ∧
    a.withdrawals = b.withdrawals

/-! ## General lemmas -/

theorem find_map_congr {α : Type} (l : List α) (p : α → Bool) (g : α → α)
    (hg : ∀ a, p (g a) = p a) : (l.map g).find? p = (l.find? p).map g := by
  induction l with
  | nil => rfl
  | cons a t ih =>
    by_cases h : p a = true
    · rw [List.map_cons, List.find?_cons_of_pos _ (by rw [hg]; exact h),
        List.find?_cons_of_pos _ h, Option.map_some']
    · have h2 : ¬p (g a) = true := by rw [hg]; exact h
      rw [List.map_cons, List.find?_cons_of_neg _ h2,
        List.find?_cons_of_neg _ h, ih]

theorem goTrunc_of_nonneg {q : ℚ} (h : 0 ≤ q) : goTrunc q = ⌊q⌋ := if_pos h

theorem goTrunc_intCast_add_half (n : ℤ) (hn : 0 ≤ n) :
    goTrunc ((n : ℚ) + 1 / 2) = n := by
  have h0 : (0 : ℚ) ≤ (n : ℚ) + 1 / 2 := by
    have hn2 : (0 : ℚ) ≤ (n : ℚ) := by exact_mod_cast hn
    linarith
  rw [goTrunc_of_nonneg h0, add_comm, Int.floor_add_int]
  have h12 : ⌊(1 / 2 : ℚ)⌋ = 0 := by
    rw [Int.floor_eq_zero_iff]
    constructor <;> norm_num
  omega

/-- A nonnegative two-decimal value is a fixed point of the rounding
helper. -/
theorem round3_eq_self {q : ℚ} (h : isMoney q) : round3 q = q := by
  obtain ⟨h0, hden⟩ := h
  have hq : (((q * 100).num : ℚ)) = q * 100 := by
    rw [← Rat.den_eq_one_iff]
    exact hden
  have hn : 0 ≤ (q * 100).num := by
    rw [Rat.num_nonneg]
    positivity
  unfold round3
  rw [show q * 100 + 1 / 2 = ((q * 100).num : ℚ) + 1 / 2 by rw [hq],
    goTrunc_intCast_add_half _ hn, hq]
  ring

/-! ### Frame lemmas: each updater touches a single table -/

@[simp] theorem updUsers_investments (db : DB) (uid : ℕ) (f : User → User) :
    (updUsers db uid f).investments = db.investments := rfl
@[simp] theorem updUsers_payments (db : DB) (uid : ℕ) (f : User → User) :
    (updUsers db uid f).payments = db.payments := rfl
@[simp] theorem updUsers_transactions (db : DB) (uid : ℕ) (f : User → User) :
    (updUsers db uid f).transactions = db.transactions := rfl
@[simp] theorem updUsers_withdrawals (db : DB) (uid : ℕ) (f : User → User) :
    (updUsers db uid f).withdrawals = db.withdrawals := rfl
@[simp] theorem updUsers_categories (db : DB) (uid : ℕ) (f : User → User) :
    (updUsers db uid f).categories = db.categories := rfl
@[simp] theorem updUsers_products (db : DB) (uid : ℕ) (f : User → User) :
    (updUsers db uid f).products = db.products := rfl
@[simp] theorem updUsers_ordCounter (db : DB) (uid : ℕ) (f : User → User) :
    (updUsers db uid f).ordCounter = db.ordCounter := rfl

@[simp] theorem updInvestments_users (db : DB) (iid : ℕ) (f : Investment → Investment) :
    (updInvestments db iid f).users = db.users := rfl
@[simp] theorem updInvestments_payments (db : DB) (iid : ℕ) (f : Investment → Investment) :
    (updInvestments db iid f).payments = db.payments := rfl
@[simp] theorem updInvestments_transactions (db : DB) (iid : ℕ) (f : Investment → Investment) :
    (updInvestments db iid f).transactions = db.transactions := rfl
@[simp] theorem updInvestments_withdrawals (db : DB) (iid : ℕ) (f : Investment → Investment) :
    (updInvestments db iid f).withdrawals = db.withdrawals := rfl
@[simp] theorem updInvestments_categories (db : DB) (iid : ℕ) (f : Investment → Investment) :
    (updInvestments db iid f).categories = db.categories := rfl
@[simp] theorem updInvestments_products (db : DB) (iid : ℕ) (f : Investment → Investment) :
    (updInvestments db iid f).products = db.products := rfl
@[simp] theorem updInvestments_ordCounter (db : DB) (iid : ℕ) (f : Investment → Investment) :
    (updInvestments db iid f).ordCounter = db.ordCounter := rfl

@[simp] theorem updPayments_users (db : DB) (pid : ℕ) (f : Payment → Payment) :
    (updPayments db pid f).users = db.users := rfl
@[simp] theorem updPayments_investments (db : DB) (pid : ℕ) (f : Payment → Payment) :
    (updPayments db pid f).investments = db.investments := rfl
@[simp] theorem updPayments_transactions (db : DB) (pid : ℕ) (f : Payment → Payment) :
    (updPayments db pid f).transactions = db.transactions := rfl
@[simp] theorem updPayments_withdrawals (db : DB) (pid : ℕ) (f : Payment → Payment) :
    (updPayments db pid f).withdrawals = db.withdrawals := rfl
@[simp] theorem updPayments_categories (db : DB) (pid : ℕ) (f : Payment → Payment) :
    (updPayments db pid f).categories = db.categories := rfl
@[simp] theorem updPayments_products (db : DB) (pid : ℕ) (f : Payment → Payment) :
    (updPayments db pid f).products = db.products := rfl
@[simp] theorem updPayments_ordCounter (db : DB) (pid : ℕ) (f : Payment → Payment) :
    (updPayments db pid f).ordCounter = db.ordCounter := rfl

@[simp] theorem updTransactionsByOrder_users (db : DB) (oid : String) (f : Transaction → Transaction) :
    (updTransactionsByOrder db oid f).users = db.users := rfl
@[simp] theorem updTransactionsByOrder_investments (db : DB) (oid : String) (f : Transaction → Transaction) :
    (updTransactionsByOrder db oid f).investments = db.investments := rfl
@[simp] theorem updTransactionsByOrder_payments (db : DB) (oid : String) (f : Transaction → Transaction) :
    (updTransactionsByOrder db oid f).payments = db.payments := rfl
@[simp] theorem updTransactionsByOrder_withdrawals (db : DB) (oid : String) (f : Transaction → Transaction) :
    (updTransactionsByOrder db oid f).withdrawals = db.withdrawals := rfl
@[simp] theorem updTransactionsByOrder_categories (db : DB) (oid : String) (f : Transaction → Transaction) :
    (updTransactionsByOrder db oid f).categories = db.categories := rfl
@[simp] theorem updTransactionsByOrder_products (db : DB) (oid : String) (f : Transaction → Transaction) :
    (updTransactionsByOrder db oid f).products = db.products := rfl
@[simp] theorem updTransactionsByOrder_ordCounter (db : DB) (oid : String) (f : Transaction → Transaction) :
    (updTransactionsByOrder db oid f).ordCounter = db.ordCounter := rfl

@[simp] theorem updWithdrawals_users (db : DB) (wid : ℕ) (f : Withdrawal → Withdrawal) :
    (updWithdrawals db wid f).users = db.users := rfl
@[simp] theorem updWithdrawals_investments (db : DB) (wid : ℕ) (f : Withdrawal → Withdrawal) :
    (updWithdrawals db wid f).investments = db.investments := rfl
@[simp] theorem updWithdrawals_payments (db : DB) (wid : ℕ) (f : Withdrawal → Withdrawal) :
    (updWithdrawals db wid f).payments = db.payments := rfl
@[simp] theorem updWithdrawals_transactions (db : DB) (wid : ℕ) (f : Withdrawal → Withdrawal) :
    (updWithdrawals db wid f).transactions = db.transactions := rfl

@[simp] theorem insertTransaction_users (db : DB) (t : Transaction) :
    (insertTransaction db t).users = db.users := rfl
@[simp] theorem insertTransaction_investments (db : DB) (t : Transaction) :
    (insertTransaction db t).investments = db.investments := rfl
@[simp] theorem insertTransaction_payments (db : DB) (t : Transaction) :
    (insertTransaction db t).payments = db.payments := rfl
@[simp] theorem insertTransaction_withdrawals (db : DB) (t : Transaction) :
    (insertTransaction db t).withdrawals = db.withdrawals := rfl
@[simp] theorem insertTransaction_categories (db : DB) (t : Transaction) :
    (insertTransaction db t).categories = db.categories := rfl
@[simp] theorem insertTransaction_products (db : DB) (t : Transaction) :
    (insertTransaction db t).products = db.products := rfl
@[simp] theorem insertTransaction_ordCounter (db : DB) (t : Transaction) :
    (insertTransaction db t).ordCounter = db.ordCounter := rfl
@[simp] theorem insertTransaction_transactions (db : DB) (t : Transaction) :
    (insertTransaction db t).transactions = db.transactions ++ [t] := rfl

@[simp] theorem genOrder_users (db : DB) (uid : ℕ) :
    (genOrder db uid).2.users = db.users := rfl
@[simp] theorem genOrder_investments (db : DB) (uid : ℕ) :
    (genOrder db uid).2.investments = db.investments := rfl
@[simp] theorem genOrder_payments (db : DB) (uid : ℕ) :
    (genOrder db uid).2.payments = db.payments := rfl
@[simp] theorem genOrder_transactions (db : DB) (uid : ℕ) :
    (genOrder db uid).2.transactions = db.transactions := rfl
@[simp] theorem genOrder_withdrawals (db : DB) (uid : ℕ) :
    (genOrder db uid).2.withdrawals = db.withdrawals := rfl
@[simp] theorem genOrder_categories (db : DB) (uid : ℕ) :
    (genOrder db uid).2.categories = db.categories := rfl
@[simp] theorem genOrder_products (db : DB) (uid : ℕ) :
    (genOrder db uid).2.products = db.products := rfl

@[simp] theorem updUsers_users (db : DB) (uid : ℕ) (f : User → User) :
    (updUsers db uid f).users =
      db.users.map (fun u => if u.id == uid then f u else u) := rfl
@[simp] theorem updInvestments_investments (db : DB) (iid : ℕ)
    (f : Investment → Investment) :
    (updInvestments db iid f).investments =
      db.investments.map (fun i => if i.id == iid then f i else i) := rfl
@[simp] theorem updPayments_payments (db : DB) (pid : ℕ) (f : Payment → Payment) :
    (updPayments db pid f).payments =
      db.payments.map (fun p => if p.id == pid then f p else p) := rfl
@[simp] theorem updTransactionsByOrder_transactions (db : DB) (oid : String)
    (f : Transaction → Transaction) :
    (updTransactionsByOrder db oid f).transactions =
      db.transactions.map (fun t => if t.orderId == oid then f t else t) := rfl
@[simp] theorem updWithdrawals_withdrawals (db : DB) (wid : ℕ)
    (f : Withdrawal → Withdrawal) :
    (updWithdrawals db wid f).withdrawals =
      db.withdrawals.map (fun wd => if wd.id == wid then f wd else wd) := rfl

/-! ### Finder lemmas through updates -/

theorem findUser_updUsers (db : DB) (uid k : ℕ) (f : User → User)
    (hf : ∀ u, (f u).id = u.id) :
    findUser (updUsers db uid f) k =
      (findUser db k).map (fun u => if u.id == uid then f u else u) := by
  unfold findUser updUsers
  apply find_map_congr
  intro a
  by_cases h : (a.id == uid) = true <;> simp [h, hf]

theorem findInvestmentById_updInvestments (db : DB) (iid k : ℕ)
    (f : Investment → Investment) (hf : ∀ i, (f i).id = i.id) :
    findInvestmentById (updInvestments db iid f) k =
      (findInvestmentById db k).map (fun i => if i.id == iid then f i else i) := by
  unfold findInvestmentById updInvestments
  apply find_map_congr
  intro a
  by_cases h : (a.id == iid) = true <;> simp [h, hf]

theorem findPaymentByOrder_updPayments (db : DB) (pid : ℕ) (oid : String)
    (f : Payment → Payment) (hf : ∀ p, (f p).orderId = p.orderId) :
    findPaymentByOrder (updPayments db pid f) oid =
      (findPaymentByOrder db oid).map (fun p => if p.id == pid then f p else p) := by
  unfold findPaymentByOrder updPayments
  apply find_map_congr
  intro a
  by_cases h : (a.id == pid) = true <;> simp [h, hf]

theorem mem_of_findUser {db : DB} {k : ℕ} {u : User}
    (h : findUser db k = some u) : u ∈ db.users ∧ u.id = k := by
  unfold findUser at h
  refine ⟨List.mem_of_find?_eq_some h, ?_⟩
  have := List.find?_some h
  simpa using this

theorem mem_of_findInvestmentById {db : DB} {k : ℕ} {i : Investment}
    (h : findInvestmentById db k = some i) : i ∈ db.investments ∧ i.id = k := by
  unfold findInvestmentById at h
  refine ⟨List.mem_of_find?_eq_some h, ?_⟩
  have := List.find?_some h
  simpa using this

theorem mem_of_findPaymentByOrder {db : DB} {oid : String} {p : Payment}
    (h : findPaymentByOrder db oid = some p) :
    p ∈ db.payments ∧ p.orderId = oid := by
  unfold findPaymentByOrder at h
  refine ⟨List.mem_of_find?_eq_some h, ?_⟩
  have := List.find?_some h
  simpa using this

@[simp] theorem findInvestmentById_updPayments (db : DB) (pid k : ℕ)
    (f : Payment → Payment) :
    findInvestmentById (updPayments db pid f) k = findInvestmentById db k := rfl

/-! ### Settlement lemmas -/

theorem payAndRecord_transactions (db : DB) (uid : ℕ) (nb amt : ℚ)
    (ty msg : String) :
    (payAndRecord db uid nb amt ty msg).transactions = db.transactions ++
      [{ userId := uid, amount := amt, charge := 0,
         orderId := genOrderID uid db.ordCounter,
         transactionFlow := "debit", transactionType := ty,
         message := some msg, status := "Success" }] := by
  unfold payAndRecord genOrder
  simp

theorem payAndRecord_users_spin (db : DB) (uid : ℕ) (nb amt : ℚ)
    (ty msg : String) :
    (payAndRecord db uid nb amt ty msg).users.map User.spinTicket =
      db.users.map User.spinTicket := by
  unfold payAndRecord genOrder
  simp only [insertTransaction_users, updUsers_users, List.map_map]
  apply List.map_congr_left
  intro a _
  by_cases h : (a.id == uid) = true <;> simp [Function.comp, h]

theorem mem_append_return {l s : List Transaction}
    (hs : ∀ t ∈ s, t.transactionType = "return") :
    ∀ t ∈ l ++ s, t ∈ l ∨ t.transactionType = "return" := by
  intro t ht
  rcases List.mem_append.mp ht with h | h
  · exact Or.inl h
  · exact Or.inr (hs t h)

/-- Every ledger entry created by one settlement step has type "return",
and no user's spin-ticket counter changes. -/
theorem settleOne_return_only (db : DB) (inv : Investment) (now : ℤ)
    (d : DB) (h : settleOne db inv now = some d) :
    (∀ t ∈ d.transactions, t ∈ db.transactions ∨ t.transactionType = "return") ∧
    d.users.map User.spinTicket = db.users.map User.spinTicket := by
  unfold settleOne at h
  dsimp only at h
  repeat' split at h
  all_goals try (exfalso; exact Option.noConfusion h)
  all_goals
    rw [← Option.some_inj.mp h]
    constructor
    · intro t ht
      simp only [updInvestments_transactions, payAndRecord_transactions,
        List.append_assoc] at ht
      first
        | exact Or.inl ht
        | exact mem_append_return (by simp) t ht
    · simp only [updInvestments_users, payAndRecord_users_spin]

theorem cronFold_return (db : DB) (now : ℤ) :
    ∀ (L : List Investment) (d : DB) (n : ℕ),
      (∀ t ∈ d.transactions, t ∈ db.transactions ∨ t.transactionType = "return") →
      d.users.map User.spinTicket = db.users.map User.spinTicket →
      (∀ t ∈ (L.foldl (fun st i =>
          match settleOne st.1 i now with
          | some d2 => (d2, st.2 + 1)
          | none => st) (d, n)).1.transactions,
        t ∈ db.transactions ∨ t.transactionType = "return") ∧
      (L.foldl (fun st i =>
          match settleOne st.1 i now with
          | some d2 => (d2, st.2 + 1)
          | none => st) (d, n)).1.users.map User.spinTicket =
        db.users.map User.spinTicket := by
  intro L
  induction L with
  | nil => intro d n h1 h2; exact ⟨h1, h2⟩
  | cons i L ih =>
    intro d n h1 h2
    simp only [List.foldl_cons]
    cases hs : settleOne d i now with
    | none => exact ih d n h1 h2
    | some d2 =>
      obtain ⟨g1, g2⟩ := settleOne_return_only d i now d2 hs
      refine ih d2 (n + 1) ?_ (by rw [g2, h2])
      intro t ht
      rcases g1 t ht with h | h
      · exact h1 t h
      · exact Or.inr h

/-- C5's scheduler side: the daily settlement scheduler creates only
"return"-typed ledger entries (never a "team" referral bonus) and never
changes any user's spin-ticket counter. -/
theorem cron_no_team_bonus (db : DB) (now : ℤ) :
    (∀ t ∈ (CronDailyReturnsHandler db now).1.transactions,
      t ∈ db.transactions ∨ t.transactionType = "return") ∧
    (CronDailyReturnsHandler db now).1.users.map User.spinTicket =
      db.users.map User.spinTicket := by
  unfold CronDailyReturnsHandler
  exact cronFold_return db now _ db 0 (fun t ht => Or.inl ht) rfl

/-! ### Scheduler idempotence lemmas -/

/-- The rollback condition of one settlement step: a missing user, category
or product row. -/
def lookupFails (db : DB) (i : Investment) : Prop :=
  findUser db i.userId = none ∨ findCategory db i.categoryId = none ∨
    findProduct db i.productId = none

theorem settleOne_eq_none_iff (db : DB) (inv : Investment) (now : ℤ) :
    settleOne db inv now = none ↔ lookupFails db inv := by
  unfold settleOne lookupFails
  cases hu : findUser db inv.userId <;>
    cases hc : findCategory db inv.categoryId <;>
      cases hp : findProduct db inv.productId <;> simp

@[simp] theorem payAndRecord_investments (db : DB) (uid : ℕ) (nb amt : ℚ)
    (ty msg : String) :
    (payAndRecord db uid nb amt ty msg).investments = db.investments := by
  unfold payAndRecord genOrder
  simp

@[simp] theorem payAndRecord_categories (db : DB) (uid : ℕ) (nb amt : ℚ)
    (ty msg : String) :
    (payAndRecord db uid nb amt ty msg).categories = db.categories := by
  unfold payAndRecord genOrder
  simp

@[simp] theorem payAndRecord_products (db : DB) (uid : ℕ) (nb amt : ℚ)
    (ty msg : String) :
    (payAndRecord db uid nb amt ty msg).products = db.products := by
  unfold payAndRecord genOrder
  simp

theorem payAndRecord_users_id (db : DB) (uid : ℕ) (nb amt : ℚ)
    (ty msg : String) :
    (payAndRecord db uid nb amt ty msg).users.map User.id =
      db.users.map User.id := by
  unfold payAndRecord genOrder
  simp only [insertTransaction_users, updUsers_users, List.map_map]
  apply List.map_congr_left
  intro a _
  by_cases h : (a.id == uid) = true <;> simp [Function.comp, h]

/-- The full shape of a successful settlement step: the due row (and any
row sharing its id) is replaced by its settled version; user ids, the
catalog tables and the due-scan-relevant lookups are untouched. -/
theorem settleOne_some_shape (db : DB) (inv : Investment) (now : ℤ)
    (d : DB) (h : settleOne db inv now = some d) :
    d.investments = db.investments.map (fun r =>
      if r.id == inv.id then settleUpd inv now r else r) ∧
    d.users.map User.id = db.users.map User.id ∧
    d.categories = db.categories ∧ d.products = db.products := by
  unfold settleOne at h
  dsimp only at h
  repeat' split at h
  all_goals try (exfalso; exact Option.noConfusion h)
  all_goals
    rw [← Option.some_inj.mp h]
    refine ⟨by simp, ?_, by simp, by simp⟩
    simp only [updInvestments_users, payAndRecord_users_id]

theorem findUser_eq_none_iff (db : DB) (uid : ℕ) :
    findUser db uid = none ↔ uid ∉ db.users.map User.id := by
  unfold findUser
  rw [List.find?_eq_none]
  constructor
  · intro h hm
    rcases List.mem_map.mp hm with ⟨u, hu, hid⟩
    exact h u hu (by simp [hid])
  · intro h u hu hb
    exact h (List.mem_map.mpr ⟨u, hu, by simpa using hb⟩)

/-- `lookupFails` depends only on user ids and the catalog tables, so a
successful settlement step preserves it in both directions. -/
theorem lookupFails_stable (db d : DB) (inv j : Investment) (now : ℤ)
    (h : settleOne db inv now = some d) :
    (lookupFails d j ↔ lookupFails db j) := by
  obtain ⟨-, hids, hcat, hprod⟩ := settleOne_some_shape db inv now d h
  unfold lookupFails
  rw [findUser_eq_none_iff, findUser_eq_none_iff, hids]
  unfold findCategory findProduct
  rw [hcat, hprod]

/-- A settled row is no longer due: its `next_return_at` has advanced past
`now`. -/
theorem dueFilter_settleUpd_false (inv r : Investment) (now : ℤ) :
    dueFilter now (settleUpd inv now r) = false := by
  have h : (decide (now + oneDay ≤ now)) = false := by
    have h2 : ¬now + oneDay ≤ now := by unfold oneDay; omega
    exact decide_eq_false h2
  unfold dueFilter settleUpd
  dsimp only
  simp only [h, Bool.and_false, Bool.false_and]

@[simp] theorem updUsers_nextInvId (db : DB) (uid : ℕ) (f : User → User) :
    (updUsers db uid f).nextInvId = db.nextInvId := rfl
@[simp] theorem updInvestments_nextInvId (db : DB) (iid : ℕ)
    (f : Investment → Investment) :
    (updInvestments db iid f).nextInvId = db.nextInvId := rfl
@[simp] theorem updPayments_nextInvId (db : DB) (pid : ℕ)
    (f : Payment → Payment) :
    (updPayments db pid f).nextInvId = db.nextInvId := rfl
@[simp] theorem updTransactionsByOrder_nextInvId (db : DB) (oid : String)
    (f : Transaction → Transaction) :
    (updTransactionsByOrder db oid f).nextInvId = db.nextInvId := rfl
@[simp] theorem updWithdrawals_nextInvId (db : DB) (wid : ℕ)
    (f : Withdrawal → Withdrawal) :
    (updWithdrawals db wid f).nextInvId = db.nextInvId := rfl
@[simp] theorem insertTransaction_nextInvId (db : DB) (t : Transaction) :
    (insertTransaction db t).nextInvId = db.nextInvId := rfl
@[simp] theorem genOrder_nextInvId (db : DB) (uid : ℕ) :
    (genOrder db uid).2.nextInvId = db.nextInvId := rfl
@[simp] theorem updWithdrawals_products (db : DB) (wid : ℕ)
    (f : Withdrawal → Withdrawal) :
    (updWithdrawals db wid f).products = db.products := rfl
@[simp] theorem updWithdrawals_categories (db : DB) (wid : ℕ)
    (f : Withdrawal → Withdrawal) :
    (updWithdrawals db wid f).categories = db.categories := rfl

@[simp] theorem payAndRecord_nextInvId (db : DB) (uid : ℕ) (nb amt : ℚ)
    (ty msg : String) :
    (payAndRecord db uid nb amt ty msg).nextInvId = db.nextInvId := by
  unfold payAndRecord genOrder
  simp

theorem settleOne_some_nextInvId (db : DB) (inv : Investment) (now : ℤ)
    (d : DB) (h : settleOne db inv now = some d) :
    d.nextInvId = db.nextInvId := by
  unfold settleOne at h
  dsimp only at h
  repeat' split at h
  all_goals try (exfalso; exact Option.noConfusion h)
  all_goals rw [← Option.some_inj.mp h]; simp

/-- The counters and tables the reachability invariant cares about are
preserved by a whole settlement pass. -/
theorem cronFold_frame (now : ℤ) :
    ∀ (L : List Investment) (d : DB) (n : ℕ),
      (L.foldl (fun st i =>
          match settleOne st.1 i now with
          | some d2 => (d2, st.2 + 1)
          | none => st) (d, n)).1.products = d.products ∧
      (L.foldl (fun st i =>
          match settleOne st.1 i now with
          | some d2 => (d2, st.2 + 1)
          | none => st) (d, n)).1.investments.map Investment.id =
        d.investments.map Investment.id ∧
      (L.foldl (fun st i =>
          match settleOne st.1 i now with
          | some d2 => (d2, st.2 + 1)
          | none => st) (d, n)).1.nextInvId = d.nextInvId := by
  intro L
  induction L with
  | nil => intro d n; exact ⟨rfl, rfl, rfl⟩
  | cons i L ih =>
    intro d n
    simp only [List.foldl_cons]
    cases hs : settleOne d i now with
    | none => exact ih d n
    | some d2 =>
      obtain ⟨hinv, -, -, hprod⟩ := settleOne_some_shape d i now d2 hs
      obtain ⟨f1, f2, f3⟩ := ih d2 (n + 1)
      refine ⟨f1.trans hprod, f2.trans ?_, f3.trans
        (settleOne_some_nextInvId d i now d2 hs)⟩
      rw [hinv, List.map_map]
      apply List.map_congr_left
      intro a _
      by_cases h : (a.id == i.id) = true <;> simp [Function.comp, h, settleUpd]

/-- The settlement-pass fold invariant: once the pass has run, every row
still matching the due scan must have failed its settlement (missing
user, category or product row). -/
theorem cronFold_due_fails (now : ℤ) :
    ∀ (L : List Investment) (d : DB) (n : ℕ),
      (∀ j ∈ d.investments, dueFilter now j = true →
        j ∈ L ∨ lookupFails d j) →
      ∀ j ∈ (L.foldl (fun st i =>
          match settleOne st.1 i now with
          | some d2 => (d2, st.2 + 1)
          | none => st) (d, n)).1.investments,
        dueFilter now j = true →
        lookupFails (L.foldl (fun st i =>
          match settleOne st.1 i now with
          | some d2 => (d2, st.2 + 1)
          | none => st) (d, n)).1 j := by
  intro L
  induction L with
  | nil =>
    intro d n hS j hj hdue
    simp only [List.foldl_nil] at *
    rcases hS j hj hdue with h | h
    · exact absurd h (List.not_mem_nil j)
    · exact h
  | cons i L ih =>
    intro d n hS
    simp only [List.foldl_cons]
    cases hs : settleOne d i now with
    | none =>
      apply ih d n
      intro j hj hdue
      rcases hS j hj hdue with h | h
      · rcases List.mem_cons.mp h with rfl | h2
        · exact Or.inr ((settleOne_eq_none_iff d j now).mp hs)
        · exact Or.inl h2
      · exact Or.inr h
    | some d2 =>
      apply ih d2 (n + 1)
      intro j hj hdue
      obtain ⟨hinv, -, -, -⟩ := settleOne_some_shape d i now d2 hs
      rw [hinv] at hj
      rcases List.mem_map.mp hj with ⟨r, hr, rfl⟩
      by_cases hid : (r.id == i.id) = true
      · rw [if_pos hid] at hdue
        rw [dueFilter_settleUpd_false] at hdue
        exact absurd hdue (by simp)
      · rw [if_neg hid] at hdue ⊢
        rcases hS r hr hdue with h | h
        · rcases List.mem_cons.mp h with rfl | h2
          · exact absurd (by simp : (r.id == r.id) = true) (by simpa using hid)
          · exact Or.inl h2
        · exact Or.inr ((lookupFails_stable d d2 i r now hs).mpr h)

/-- A pass in which every due row fails to settle changes nothing. -/
theorem cronFold_noop (now : ℤ) :
    ∀ (L : List Investment) (d : DB) (n : ℕ),
      (∀ i ∈ L, settleOne d i now = none) →
      L.foldl (fun st i =>
        match settleOne st.1 i now with
        | some d2 => (d2, st.2 + 1)
        | none => st) (d, n) = (d, n) := by
  intro L
  induction L with
  | nil => intro d n _; rfl
  | cons i L ih =>
    intro d n h
    simp only [List.foldl_cons, h i (List.mem_cons_self i L)]
    exact ih d n (fun j hj => h j (List.mem_cons_of_mem i hj))

/-! ### The investment-counter invariant (C4) -/

/-- The per-investment counter invariant: `0 ≤ totalPaid ≤ durationPeriods`
and `status = Completed → totalPaid = durationPeriods`. -/
def invCounters (i : Investment) : Prop :=
  0 ≤ i.totalPaid ∧ i.totalPaid ≤ i.duration ∧
    (i.status = "Completed" → i.totalPaid = i.duration)

/-- The system-level well-formedness carried through reachability:
nonnegative product durations (admin catalog), primary-key discipline on
investments, and the counter invariant on every row. -/
def GoodDB (db : DB) : Prop :=
  (∀ p ∈ db.products, 0 ≤ p.duration) ∧
  (db.investments.map Investment.id).Nodup ∧
  (∀ i ∈ db.investments, i.id < db.nextInvId) ∧
  (∀ i ∈ db.investments, invCounters i)

theorem invCounters_settleUpd (i : Investment) (now : ℤ)
    (hdue : dueFilter now i = true) (hinv : invCounters i) :
    invCounters (settleUpd i now i) := by
  obtain ⟨h0, h1, h2⟩ := hinv
  unfold dueFilter at hdue
  rw [Bool.and_eq_true, Bool.and_eq_true] at hdue
  obtain ⟨⟨hrun, -⟩, hlt⟩ := hdue
  have hrun2 : i.status = "Running" := by simpa using hrun
  have hlt2 : i.totalPaid < i.duration := by simpa using hlt
  unfold invCounters settleUpd
  dsimp only
  refine ⟨by omega, by omega, ?_⟩
  split
  · intro _
    omega
  · intro hC
    rw [hrun2] at hC
    exact absurd hC (by decide)

theorem cronFold_invCounters (now : ℤ) :
    ∀ (L : List Investment) (d : DB) (n : ℕ),
      (∀ i ∈ L, dueFilter now i = true ∧ invCounters i) →
      (L.map Investment.id).Nodup →
      (∀ i ∈ L, ∀ j ∈ d.investments, j.id = i.id → j = i) →
      (∀ j ∈ d.investments, invCounters j) →
      ∀ j ∈ (L.foldl (fun st i =>
          match settleOne st.1 i now with
          | some d2 => (d2, st.2 + 1)
          | none => st) (d, n)).1.investments, invCounters j := by
  intro L
  induction L with
  | nil =>
    intro d n _ _ _ hInv
    simpa using hInv
  | cons i L ih =>
    intro d n hL hNodup hKey hInv
    simp only [List.foldl_cons]
    have hLrest : ∀ x ∈ L, dueFilter now x = true ∧ invCounters x :=
      fun x hx => hL x (List.mem_cons_of_mem i hx)
    have hNodupRest : (L.map Investment.id).Nodup := by
      simpa using hNodup.of_cons
    cases hs : settleOne d i now with
    | none =>
      exact ih d n hLrest hNodupRest
        (fun x hx => hKey x (List.mem_cons_of_mem i hx)) hInv
    | some d2 =>
      obtain ⟨hinv2, -, -, -⟩ := settleOne_some_shape d i now d2 hs
      apply ih d2 (n + 1) hLrest hNodupRest
      · intro i2 hi2 j hj hjid
        rw [hinv2] at hj
        rcases List.mem_map.mp hj with ⟨r, hr, rfl⟩
        by_cases hid : (r.id == i.id) = true
        · exfalso
          have hri : r = i := hKey i (List.mem_cons_self i L) r hr
            (by simpa using hid)
          have hji : (settleUpd i now r).id = i.id := by
            rw [hri]
            rfl
          rw [if_pos hid] at hjid
          rw [hji] at hjid
          have : i.id ∈ L.map Investment.id :=
            List.mem_map.mpr ⟨i2, hi2, by rw [← hjid]⟩
          simp only [List.map_cons, List.nodup_cons] at hNodup
          exact hNodup.1 this
        · rw [if_neg hid] at hjid ⊢
          exact hKey i2 (List.mem_cons_of_mem i hi2) r hr hjid
      · intro j hj
        rw [hinv2] at hj
        rcases List.mem_map.mp hj with ⟨r, hr, rfl⟩
        by_cases hid : (r.id == i.id) = true
        · rw [if_pos hid]
          have hri : r = i := hKey i (List.mem_cons_self i L) r hr
            (by simpa using hid)
          rw [hri]
          exact invCounters_settleUpd i now (hL i (List.mem_cons_self i L)).1
            (hL i (List.mem_cons_self i L)).2
        · rw [if_neg hid]
          exact hInv r hr

/-! ### Referral-bonus lemmas -/

@[simp] theorem findUser_insertTransaction (db : DB) (t : Transaction) (k : ℕ) :
    findUser (insertTransaction db t) k = findUser db k := rfl
@[simp] theorem findUser_genOrder (db : DB) (uid k : ℕ) :
    findUser (genOrder db uid).2 k = findUser db k := rfl
@[simp] theorem findUser_updPayments (db : DB) (pid : ℕ) (f : Payment → Payment)
    (k : ℕ) : findUser (updPayments db pid f) k = findUser db k := rfl
@[simp] theorem findUser_updInvestments (db : DB) (iid : ℕ)
    (f : Investment → Investment) (k : ℕ) :
    findUser (updInvestments db iid f) k = findUser db k := rfl
@[simp] theorem findUser_updTransactionsByOrder (db : DB) (oid : String)
    (f : Transaction → Transaction) (k : ℕ) :
    findUser (updTransactionsByOrder db oid f) k = findUser db k := rfl

/-- The id, balance, spin-ticket and referrer fields of a user row. -/
def userKey (x : User) : ℕ × ℚ × Option ℕ × Option ℕ :=
  (x.id, x.balance, x.spinTicket, x.reffBy)

theorem findUser_userKey_updUsers (db : DB) (uid k : ℕ) (f : User → User)
    (hid : ∀ x, (f x).id = x.id) (hbal : ∀ x, (f x).balance = x.balance)
    (hspin : ∀ x, (f x).spinTicket = x.spinTicket)
    (hreff : ∀ x, (f x).reffBy = x.reffBy) :
    (findUser (updUsers db uid f) k).map userKey =
      (findUser db k).map userKey := by
  rw [findUser_updUsers db uid k f hid]
  cases h : findUser db k with
  | none => rfl
  | some v =>
    by_cases hv : v.id = uid <;>
      simp [userKey, hv, hid, hbal, hspin, hreff]

theorem findUser_userKey_recomputeVIP (db : DB) (uid k : ℕ) :
    (findUser (recomputeVIP db uid) k).map userKey =
      (findUser db k).map userKey := by
  unfold recomputeVIP
  split
  · apply findUser_userKey_updUsers <;> (intro x; rfl)
  · rfl

theorem findUser_upd_found (db : DB) (k key : ℕ) (v : User)
    (hv : findUser db k = some v) (hkey : v.id = key) (f : User → User)
    (hid : ∀ x, (f x).id = x.id) :
    findUser (updUsers db key f) k = some (f v) := by
  rw [findUser_updUsers db key k f hid, hv]
  simp [hkey]

/-- The full effect of `applyReferralBonus` when the investor has a
referrer: the referrer's balance grows by 30% of the amount (rounded), the
spin ticket is granted exactly for amounts of at least 100,000, and one
"team" debit ledger entry is appended. -/
theorem applyReferralBonus_spec (db : DB) (inv : Investment)
    (owner lvl1 : User) (rid : ℕ)
    (ho : findUser db inv.userId = some owner)
    (hr : owner.reffBy = some rid)
    (hl : findUser db rid = some lvl1) :
    ((findUser (applyReferralBonus db inv) rid).map User.balance =
       some (lvl1.balance + round3 (inv.amount * (30 / 100)))) ∧
    ((findUser (applyReferralBonus db inv) rid).map User.spinTicket =
       some (if 100000 ≤ inv.amount then
          (match lvl1.spinTicket with
           | none => some 1
           | some n => some (n + 1))
          else lvl1.spinTicket)) ∧
    (applyReferralBonus db inv).transactions = db.transactions ++
      [{ userId := lvl1.id, amount := round3 (inv.amount * (30 / 100)),
         charge := 0, orderId := genOrderID lvl1.id db.ordCounter,
         transactionFlow := "debit", transactionType := "team",
         message := some "Bonus rekomendasi investor",
         status := "Success" }] := by
  unfold applyReferralBonus
  rw [ho]
  dsimp only
  rw [hr]
  dsimp only
  rw [hl]
  dsimp only
  by_cases hamt : 100000 ≤ inv.amount
  · rw [if_pos hamt]
    cases hst : lvl1.spinTicket with
    | none =>
      have h5 : findUser (updUsers db lvl1.id
          (fun x => { x with spinTicket := some 1 })) rid =
          some ({ lvl1 with spinTicket := some 1 }) :=
        findUser_upd_found db rid lvl1.id lvl1 hl rfl _ (fun x => rfl)
      have h6 : findUser (updUsers (updUsers db lvl1.id
          (fun x => { x with spinTicket := some 1 })) lvl1.id
          (fun x => { x with balance :=
            x.balance + round3 (inv.amount * (30 / 100)) })) rid =
          some ({ lvl1 with
                    spinTicket := some 1,
                    balance :=
                      lvl1.balance + round3 (inv.amount * (30 / 100)) }) :=
        findUser_upd_found _ rid lvl1.id _ h5 rfl _ (fun x => rfl)
      refine ⟨?_, ?_, ?_⟩
      · simp only [findUser_insertTransaction, findUser_genOrder, h6,
          Option.map_some']
      · simp only [findUser_insertTransaction, findUser_genOrder, h6,
          Option.map_some', if_pos hamt, hst]
      · simp [genOrder, insertTransaction, updUsers]
    | some n =>
      have h5 : findUser (updUsers db lvl1.id
          (fun x => { x with spinTicket := x.spinTicket.map (· + 1) })) rid =
          some ({ lvl1 with spinTicket := lvl1.spinTicket.map (· + 1) }) :=
        findUser_upd_found db rid lvl1.id lvl1 hl rfl _ (fun x => rfl)
      have h6 : findUser (updUsers (updUsers db lvl1.id
          (fun x => { x with spinTicket := x.spinTicket.map (· + 1) }))
          lvl1.id (fun x =>
            { x with
                balance := x.balance + round3 (inv.amount * (30 / 100)) })) rid =
          some ({ lvl1 with
                    spinTicket := lvl1.spinTicket.map (· + 1),
                    balance :=
                      lvl1.balance + round3 (inv.amount * (30 / 100)) }) :=
        findUser_upd_found _ rid lvl1.id _ h5 rfl _ (fun x => rfl)
      refine ⟨?_, ?_, ?_⟩
      · simp only [findUser_insertTransaction, findUser_genOrder, h6,
          Option.map_some']
      · simp only [findUser_insertTransaction, findUser_genOrder, h6,
          Option.map_some', if_pos hamt, hst]
      · simp [genOrder, insertTransaction, updUsers]
  · rw [if_neg hamt]
    have h6 : findUser (updUsers db lvl1.id
        (fun x =>
          { x with
              balance := x.balance + round3 (inv.amount * (30 / 100)) })) rid =
        some ({ lvl1 with
               balance := lvl1.balance + round3 (inv.amount * (30 / 100)) }) :=
      findUser_upd_found db rid lvl1.id lvl1 hl rfl _ (fun x => rfl)
    refine ⟨?_, ?_, ?_⟩
    · simp only [findUser_insertTransaction, findUser_genOrder, h6,
        Option.map_some']
    · simp only [findUser_insertTransaction, findUser_genOrder, h6,
        Option.map_some', if_neg hamt]
    · simp [genOrder, insertTransaction, updUsers]

/-! ### The success branch of the purchase webhook: frame facts -/

@[simp] theorem recomputeVIP_payments (db : DB) (uid : ℕ) :
    (recomputeVIP db uid).payments = db.payments := by
  unfold recomputeVIP
  split <;> simp

@[simp] theorem recomputeVIP_investments (db : DB) (uid : ℕ) :
    (recomputeVIP db uid).investments = db.investments := by
  unfold recomputeVIP
  split <;> simp

@[simp] theorem recomputeVIP_transactions (db : DB) (uid : ℕ) :
    (recomputeVIP db uid).transactions = db.transactions := by
  unfold recomputeVIP
  split <;> simp

@[simp] theorem recomputeVIP_ordCounter (db : DB) (uid : ℕ) :
    (recomputeVIP db uid).ordCounter = db.ordCounter := by
  unfold recomputeVIP
  split <;> simp

@[simp] theorem applyReferralBonus_payments (db : DB) (inv : Investment) :
    (applyReferralBonus db inv).payments = db.payments := by
  unfold applyReferralBonus
  dsimp only
  repeat' split
  all_goals simp

@[simp] theorem applyReferralBonus_investments (db : DB) (inv : Investment) :
    (applyReferralBonus db inv).investments = db.investments := by
  unfold applyReferralBonus
  dsimp only
  repeat' split
  all_goals simp

/-- `webhookConfirm` factors as the user-total/VIP updates (which preserve
every user's id, balance, spin ticket and referrer, and only mark the
purchase ledger entry Success) followed by `applyReferralBonus`. -/
theorem webhookConfirm_eq (db : DB) (inv : Investment) (now : ℤ) :
    ∃ db4 : DB,
      webhookConfirm db inv now = applyReferralBonus db4 inv ∧
      (∀ k, (findUser db4 k).map userKey = (findUser db k).map userKey) ∧
      db4.transactions = db.transactions.map (fun t =>
        if t.orderId == inv.orderId then { t with status := "Success" }
        else t) ∧
      db4.ordCounter = db.ordCounter := by
  unfold webhookConfirm
  dsimp only
  refine ⟨_, rfl, ?_, ?_, ?_⟩
  · intro k
    split
    · rw [findUser_userKey_recomputeVIP]
      exact findUser_userKey_updUsers _ _ _ _ (fun x => rfl) (fun x => rfl)
        (fun x => rfl) (fun x => rfl)
    · exact findUser_userKey_updUsers _ _ _ _ (fun x => rfl) (fun x => rfl)
        (fun x => rfl) (fun x => rfl)
  · split <;> simp
  · split <;> simp

/-- The referral effect of the webhook's success branch, phrased against
the pre-state: balance +30% (rounded), spin ticket granted iff the amount
is at least 100,000, and exactly one "team" ledger entry appended. -/
theorem webhookConfirm_referral (db : DB) (inv : Investment) (now : ℤ)
    (u lvl1 : User) (rid : ℕ)
    (hu : findUser db inv.userId = some u)
    (hr : u.reffBy = some rid)
    (hl : findUser db rid = some lvl1) :
    ((findUser (webhookConfirm db inv now) rid).map User.balance =
       some (lvl1.balance + round3 (inv.amount * (30 / 100)))) ∧
    ((findUser (webhookConfirm db inv now) rid).map User.spinTicket =
       some (if 100000 ≤ inv.amount then
          (match lvl1.spinTicket with
           | none => some 1
           | some n => some (n + 1))
          else lvl1.spinTicket)) ∧
    (webhookConfirm db inv now).transactions =
      db.transactions.map (fun t => if t.orderId == inv.orderId then
        { t with status := "Success" } else t) ++
      [{ userId := rid, amount := round3 (inv.amount * (30 / 100)),
         charge := 0, orderId := genOrderID rid db.ordCounter,
         transactionFlow := "debit", transactionType := "team",
         message := some "Bonus rekomendasi investor",
         status := "Success" }] := by
  obtain ⟨db4, heq, hkey, htx, hord⟩ := webhookConfirm_eq db inv now
  rw [heq]
  have hw0 : (findUser db4 inv.userId).map userKey = some (userKey u) := by
    rw [hkey inv.userId, hu, Option.map_some']
  rcases Option.map_eq_some'.mp hw0 with ⟨w, hwf, hwk⟩
  have hz0 : (findUser db4 rid).map userKey = some (userKey lvl1) := by
    rw [hkey rid, hl, Option.map_some']
  rcases Option.map_eq_some'.mp hz0 with ⟨z, hzf, hzk⟩
  simp only [userKey, Prod.mk.injEq] at hwk hzk
  obtain ⟨hwid, hwbal, hwspin, hwreff⟩ := hwk
  obtain ⟨hzid, hzbal, hzspin, hzreff⟩ := hzk
  have hlid : lvl1.id = rid := (mem_of_findUser hl).2
  have spec := applyReferralBonus_spec db4 inv w z rid hwf
    (by rw [hwreff, hr]) hzf
  refine ⟨?_, ?_, ?_⟩
  · rw [spec.1, hzbal]
  · rw [spec.2.1, hzspin]
  · rw [spec.2.2, htx, hord, hzid, hlid]

@[simp] theorem recomputeVIP_products (db : DB) (uid : ℕ) :
    (recomputeVIP db uid).products = db.products := by
  unfold recomputeVIP
  split <;> simp

@[simp] theorem recomputeVIP_nextInvId (db : DB) (uid : ℕ) :
    (recomputeVIP db uid).nextInvId = db.nextInvId := by
  unfold recomputeVIP
  split <;> simp

@[simp] theorem applyReferralBonus_products (db : DB) (inv : Investment) :
    (applyReferralBonus db inv).products = db.products := by
  unfold applyReferralBonus
  dsimp only
  repeat' split
  all_goals simp

@[simp] theorem applyReferralBonus_nextInvId (db : DB) (inv : Investment) :
    (applyReferralBonus db inv).nextInvId = db.nextInvId := by
  unfold applyReferralBonus
  dsimp only
  repeat' split
  all_goals simp

theorem webhookConfirm_products (db : DB) (inv : Investment) (now : ℤ) :
    (webhookConfirm db inv now).products = db.products := by
  unfold webhookConfirm
  dsimp only
  repeat' split
  all_goals simp

theorem webhookConfirm_nextInvId (db : DB) (inv : Investment) (now : ℤ) :
    (webhookConfirm db inv now).nextInvId = db.nextInvId := by
  unfold webhookConfirm
  dsimp only
  repeat' split
  all_goals simp

theorem webhookFail_investments (db : DB) (inv : Investment) :
    (webhookFail db inv).investments = db.investments.map (fun r =>
      if r.id == inv.id then { r with status := "Cancelled" } else r) := by
  unfold webhookFail
  simp

theorem webhookFail_products (db : DB) (inv : Investment) :
    (webhookFail db inv).products = db.products := rfl

theorem webhookFail_nextInvId (db : DB) (inv : Investment) :
    (webhookFail db inv).nextInvId = db.nextInvId := rfl

theorem webhookConfirm_payments (db : DB) (inv : Investment) (now : ℤ) :
    (webhookConfirm db inv now).payments = db.payments := by
  unfold webhookConfirm
  dsimp only
  repeat' split
  all_goals simp

theorem webhookConfirm_investments (db : DB) (inv : Investment) (now : ℤ) :
    (webhookConfirm db inv now).investments =
      db.investments.map (fun r => if r.id == inv.id then
        { r with status := "Running", lastReturnAt := none,
                 nextReturnAt := some (now + oneDay) } else r) := by
  unfold webhookConfirm
  dsimp only
  repeat' split
  all_goals simp

/-! ### Preservation of the reachability invariant by every operation -/

theorem GoodDB_parts_eq {a b : DB} (h : GoodDB a)
    (hi : b.investments = a.investments) (hp : b.products = a.products)
    (hn : b.nextInvId = a.nextInvId) : GoodDB b := by
  obtain ⟨h1, h2, h3, h4⟩ := h
  exact ⟨by rw [hp]; exact h1, by rw [hi]; exact h2,
    by rw [hi, hn]; exact h3, by rw [hi]; exact h4⟩

/-- A status-only rewrite of investment rows (to a non-"Completed" status)
preserves the invariant. -/
theorem GoodDB_map_status {db b : DB} (h : GoodDB db) (iid : ℕ) (s : String)
    (hs : s ≠ "Completed") (g : Investment → Investment)
    (hg : ∀ r, g r = { r with status := s } ∨
      (g r).id = r.id ∧ (g r).totalPaid = r.totalPaid ∧
        (g r).duration = r.duration ∧ (g r).status = s)
    (hi : b.investments = db.investments.map (fun r =>
      if r.id == iid then g r else r))
    (hp : b.products = db.products) (hn : b.nextInvId = db.nextInvId) :
    GoodDB b := by
  obtain ⟨h1, h2, h3, h4⟩ := h
  have hgid : ∀ r, (g r).id = r.id := by
    intro r
    rcases hg r with hr | hr
    · rw [hr]
    · exact hr.1
  have hids : b.investments.map Investment.id =
      db.investments.map Investment.id := by
    rw [hi, List.map_map]
    apply List.map_congr_left
    intro a _
    by_cases hc : (a.id == iid) = true <;> simp [Function.comp, hc, hgid]
  refine ⟨by rw [hp]; exact h1, by rw [hids]; exact h2, ?_, ?_⟩
  · intro i hi2
    have : i.id ∈ b.investments.map Investment.id :=
      List.mem_map.mpr ⟨i, hi2, rfl⟩
    rw [hids] at this
    rcases List.mem_map.mp this with ⟨r, hr, hrid⟩
    rw [hn, ← hrid]
    exact h3 r hr
  · intro i hi2
    rw [hi] at hi2
    rcases List.mem_map.mp hi2 with ⟨r, hr, rfl⟩
    by_cases hc : (r.id == iid) = true
    · rw [if_pos hc]
      obtain ⟨c1, c2, c3⟩ := h4 r hr
      rcases hg r with hgr | ⟨-, g2, g3, g4⟩
      · rw [hgr]
        exact ⟨c1, c2, fun hcp => absurd hcp hs⟩
      · refine ⟨by rw [g2]; exact c1, by rw [g2, g3]; exact c2, ?_⟩
        intro hcp
        rw [g4] at hcp
        exact absurd hcp hs
    · rw [if_neg hc]
      exact h4 r hr

theorem GoodDB_webhook (db : DB) (ref st pid : String) (now : ℤ)
    (h : GoodDB db) : GoodDB (KytaWebhookHandler db ref st pid now).1 := by
  unfold KytaWebhookHandler
  dsimp only
  repeat' split
  all_goals
    first
    | exact GoodDB_parts_eq h rfl rfl rfl
    | -- success branch: rows with the investment's id become Running
      (refine GoodDB_map_status h _ "Running" (by decide) _ ?_
        (webhookConfirm_investments _ _ _) (webhookConfirm_products _ _ _)
        (webhookConfirm_nextInvId _ _ _)
       intro r
       exact Or.inr ⟨rfl, rfl, rfl, rfl⟩)
    | -- failure branch: rows with the investment's id become Cancelled
      (refine GoodDB_map_status h _ "Cancelled" (by decide) _ ?_
        (webhookFail_investments _ _) rfl rfl
       intro r
       exact Or.inl rfl)

theorem GoodDB_cron (db : DB) (now : ℤ) (h : GoodDB db) :
    GoodDB (CronDailyReturnsHandler db now).1 := by
  obtain ⟨hprod, hnodup, hbound, hinv⟩ := h
  unfold CronDailyReturnsHandler
  dsimp only
  obtain ⟨f1, f2, f3⟩ :=
    cronFold_frame now (db.investments.filter (dueFilter now)) db 0
  refine ⟨by rw [f1]; exact hprod, by rw [f2]; exact hnodup, ?_, ?_⟩
  · intro i hi
    have hmm : i.id ∈ (((db.investments.filter (dueFilter now)).foldl
        (fun st i => match settleOne st.1 i now with
          | some d2 => (d2, st.2 + 1)
          | none => st) (db, 0)).1.investments.map Investment.id) :=
      List.mem_map.mpr ⟨i, hi, rfl⟩
    rw [f2] at hmm
    rcases List.mem_map.mp hmm with ⟨r, hr, hrid⟩
    rw [f3, ← hrid]
    exact hbound r hr
  · apply cronFold_invCounters now (db.investments.filter (dueFilter now)) db 0
    · intro i hi
      exact ⟨(List.mem_filter.mp hi).2, hinv i (List.mem_filter.mp hi).1⟩
    · exact hnodup.sublist ((List.filter_sublist _).map Investment.id)
    · intro i hi j hj hjid
      exact List.inj_on_of_nodup_map hnodup hj (List.mem_filter.mp hi).1 hjid
    · exact hinv

set_option maxHeartbeats 1600000 in
theorem GoodDB_create (db : DB) (uid : ℕ) (req : CreateReq)
    (tok : Option String) (chg : Option ChargeResp) (now : ℤ)
    (h : GoodDB db) :
    GoodDB (CreateInvestmentHandler db uid req tok chg now).1 := by
  obtain ⟨hprod, hnodup, hbound, hinv⟩ := h
  cases tok with
  | none =>
    unfold CreateInvestmentHandler
    dsimp only
    repeat' split
    all_goals exact ⟨hprod, hnodup, hbound, hinv⟩
  | some tokv =>
  cases chg with
  | none =>
    unfold CreateInvestmentHandler
    dsimp only
    repeat' split
    all_goals exact ⟨hprod, hnodup, hbound, hinv⟩
  | some charge =>
  unfold CreateInvestmentHandler
  dsimp only
  by_cases h1 : (strUpper (strTrim req.paymentMethod) != "QRIS" &&
      strUpper (strTrim req.paymentMethod) != "BANK") = true
  · rw [if_pos h1]
    exact ⟨hprod, hnodup, hbound, hinv⟩
  rw [if_neg h1]
  by_cases h2 : (strUpper (strTrim req.paymentMethod) == "BANK" &&
      !allowedBanks.contains (strUpper (strTrim req.paymentChannel))) = true
  · rw [if_pos h2]
    exact ⟨hprod, hnodup, hbound, hinv⟩
  rw [if_neg h2]
  cases heq : db.products.find?
      (fun p => p.id == req.productId && p.status == "Active") with
  | none => exact ⟨hprod, hnodup, hbound, hinv⟩
  | some product =>
  dsimp only
  cases heqc : findCategory db product.categoryId with
  | none => exact ⟨hprod, hnodup, hbound, hinv⟩
  | some _cat =>
  dsimp only
  cases hequ : findUser db uid with
  | none => exact ⟨hprod, hnodup, hbound, hinv⟩
  | some user =>
  dsimp only
  by_cases h3 : (user.level.getD 0 : ℤ) < goUint64 product.requiredVIP
  · rw [if_pos h3]
    exact ⟨hprod, hnodup, hbound, hinv⟩
  rw [if_neg h3]
  by_cases h4 : (decide (0 < product.purchaseLimit) &&
      decide (product.purchaseLimit ≤ investPurchaseCount db uid product.id))
      = true
  · rw [if_pos h4]
    exact ⟨hprod, hnodup, hbound, hinv⟩
  rw [if_neg h4]
  by_cases h5 : (strUpper (strTrim req.paymentMethod) == "QRIS" &&
      decide (10000000 < product.amount)) = true
  · rw [if_pos h5]
    exact ⟨hprod, hnodup, hbound, hinv⟩
  rw [if_neg h5]
  by_cases h6 : (strUpper (strTrim req.paymentMethod) == "BANK" &&
      decide (product.amount < 10000)) = true
  · rw [if_pos h6]
    exact ⟨hprod, hnodup, hbound, hinv⟩
  rw [if_neg h6]
  repeat' split
  all_goals
    refine ⟨by simpa using hprod, ?_, ?_, ?_⟩
  all_goals
    try (simp only [insertTransaction_investments, updPayments_investments,
          List.map_append]
         rw [List.nodup_append]
         refine ⟨by simpa using hnodup, by simp, ?_⟩
         intro a ha hb
         simp only [List.map_cons, List.map_nil, List.mem_singleton] at hb
         rcases List.mem_map.mp (by simpa using ha) with ⟨r, hr, hrid⟩
         have := hbound r hr
         omega)
  all_goals
    intro i hi
  all_goals
    simp only [insertTransaction_investments, updPayments_investments,
      List.mem_append, List.mem_singleton] at hi
  all_goals
    try (rcases hi with hi | hi
         · have := hbound i (by simpa using hi)
           simp only [insertTransaction_nextInvId, updPayments_nextInvId]
           omega
         · rw [hi]
           simp)
  all_goals
    rcases hi with hi | hi
  all_goals
    try (exact hinv i (by simpa using hi))
  all_goals
    rw [hi]
  all_goals
    have hpm : product ∈ db.products := List.mem_of_find?_eq_some heq
    exact ⟨by simp, by simpa using hprod product hpm,
      fun hc => by simp at hc⟩

theorem GoodDB_payout (db : DB) (ref st : String) (h : GoodDB db) :
    GoodDB (KytaPayoutWebhookHandler db ref st).1 := by
  unfold KytaPayoutWebhookHandler
  repeat' split
  all_goals exact GoodDB_parts_eq h rfl rfl rfl

theorem GoodDB_approve (db : DB) (wid : ℕ) (auto ok : Bool)
    (h : GoodDB db) : GoodDB (ApproveWithdrawal db wid auto ok).1 := by
  unfold ApproveWithdrawal markWithdrawalSuccess
  repeat' split
  all_goals exact GoodDB_parts_eq h rfl rfl rfl

theorem GoodDB_reject (db : DB) (wid : ℕ) (h : GoodDB db) :
    GoodDB (RejectWithdrawal db wid).1 := by
  unfold RejectWithdrawal
  dsimp only
  repeat' split
  all_goals exact GoodDB_parts_eq h rfl rfl rfl

/-- The reachable states of the system: any state with no investments yet
and a well-formed product catalog, closed under every state-mutating
operation of the core. -/
inductive Reachable : DB → Prop
  | init (db : DB) : db.investments = [] →
      (∀ p ∈ db.products, 0 ≤ p.duration) → Reachable db
  | create (db : DB) (uid : ℕ) (req : CreateReq) (tok : Option String)
      (chg : Option ChargeResp) (now : ℤ) : Reachable db →
      Reachable (CreateInvestmentHandler db uid req tok chg now).1
  | purchaseWebhook (db : DB) (ref st pid : String) (now : ℤ) :
      Reachable db → Reachable (KytaWebhookHandler db ref st pid now).1
  | settle (db : DB) (now : ℤ) : Reachable db →
      Reachable (CronDailyReturnsHandler db now).1
  | payoutWebhook (db : DB) (ref st : String) : Reachable db →
      Reachable (KytaPayoutWebhookHandler db ref st).1
  | approve (db : DB) (wid : ℕ) (auto ok : Bool) : Reachable db →
      Reachable (ApproveWithdrawal db wid auto ok).1
  | reject (db : DB) (wid : ℕ) : Reachable db →
      Reachable (RejectWithdrawal db wid).1

theorem GoodDB_reachable {db : DB} (h : Reachable db) : GoodDB db := by
  induction h with
  | init db hinv hprod =>
    exact ⟨hprod, by rw [hinv]; exact List.nodup_nil,
      by rw [hinv]; intro i hi; exact absurd hi (List.not_mem_nil i),
      by rw [hinv]; intro i hi; exact absurd hi (List.not_mem_nil i)⟩
  | create db uid req tok chg now _ ih => exact GoodDB_create db uid req tok chg now ih
  | purchaseWebhook db ref st pid now _ ih => exact GoodDB_webhook db ref st pid now ih
  | settle db now _ ih => exact GoodDB_cron db now ih
  | payoutWebhook db ref st _ ih => exact GoodDB_payout db ref st ih
  | approve db wid auto ok _ ih => exact GoodDB_approve db wid auto ok ih
  | reject db wid _ ih => exact GoodDB_reject db wid ih

/-! ## Concrete sample rows used by witnesses and counterexamples -/

/-- A Running investment used for webhook duplicate-delivery scenarios. -/
def invRunning : Investment :=
  { id := 1, userId := 1, productId := 1, categoryId := 1, amount := 100000,
    dailyProfit := 5000, duration := 30, totalPaid := 3,
    totalReturned := 15000, lastReturnAt := some 0,
    nextReturnAt := some 1440, orderId := "REF1", status := "Running" }

/-- The payment row paired with `invRunning`, still carrying the original
gateway reference id. -/
def payRef1 : Payment :=
  { id := 1, investmentId := 1, referenceId := some "OLD", orderId := "REF1",
    paymentMethod := some "QRIS", paymentChannel := none,
    paymentCode := none, paymentLink := none, status := "Pending",
    expiredAt := none }

/-- A state holding `invRunning` and `payRef1`. -/
def dbDup : DB :=
  { users := [], categories := [], products := [],
    investments := [invRunning], payments := [payRef1], transactions := [],
    withdrawals := [], paymentSettings := none, ordCounter := 0,
    nextInvId := 2, nextPayId := 2 }

/-- A pending withdrawal and its ledger entry, for payout-webhook
scenarios. -/
def wdPending : Withdrawal :=
  { id := 1, userId := 1, bankAccountId := 1, amount := 60000,
    charge := 2500, finalAmount := 57500, orderId := "W-1",
    status := "Success" }

def txW1 : Transaction :=
  { userId := 1, amount := 60000, charge := 2500, orderId := "W-1",
    transactionFlow := "debit", transactionType := "withdraw",
    message := none, status := "Success" }

def dbPayout : DB :=
  { users := [], categories := [], products := [], investments := [],
    payments := [], transactions := [txW1], withdrawals := [wdPending],
    paymentSettings := none, ordCounter := 0, nextInvId := 1,
    nextPayId := 1 }

/-! ## Claim theorems -/

/-- C8: for every payout webhook delivery, a literal success status is
ignored with an acknowledging response and changes no state, and any
non-success status sets the matching withdrawal and its paired ledger entry
(same orderId) back to status Pending — never to Failed. -/
theorem c8_payout_webhook_revert (db : DB) (ref st : String)
    (href : ref ≠ "") :
    (st = "Success" → KytaPayoutWebhookHandler db ref st = (db, "Ignore")) ∧
    (st ≠ "Success" → ∀ wd : Withdrawal,
      findWithdrawalByOrder db ref = some wd →
      (KytaPayoutWebhookHandler db ref st).1.withdrawals =
        db.withdrawals.map (fun x =>
          if x.id == wd.id then { wd with status := "Pending" } else x) ∧
      (KytaPayoutWebhookHandler db ref st).1.transactions =
        db.transactions.map (fun t =>
          if t.orderId == wd.orderId then { t with status := "Pending" } else t) ∧
      (∀ x ∈ (KytaPayoutWebhookHandler db ref st).1.withdrawals,
        x.status = "Pending" ∨ x ∈ db.withdrawals) ∧
      (∀ t ∈ (KytaPayoutWebhookHandler db ref st).1.transactions,
        t.status = "Pending" ∨ t ∈ db.transactions) ∧
      (KytaPayoutWebhookHandler db ref st).1.users = db.users ∧
      (KytaPayoutWebhookHandler db ref st).1.investments = db.investments) := by
  have h1 : (ref == "") = false := by simp [href]
  constructor
  · intro hst
    unfold KytaPayoutWebhookHandler
    simp [h1, hst]
  · intro hst wd hwd
    have h2 : (st == "Success") = false := by simp [hst]
    have hres : KytaPayoutWebhookHandler db ref st =
        (updTransactionsByOrder
          (updWithdrawals db wd.id (fun _ => { wd with status := "Pending" }))
          wd.orderId (fun t => { t with status := "Pending" }),
         "Status penarikan dikembalikan ke Pending") := by
      unfold KytaPayoutWebhookHandler
      simp [h1, h2, hwd]
    rw [hres]
    refine ⟨rfl, rfl, ?_, ?_, rfl, rfl⟩
    · intro x hx
      simp only [updTransactionsByOrder, updWithdrawals, List.mem_map] at hx
      obtain ⟨y, hy, rfl⟩ := hx
      by_cases h : (y.id == wd.id) = true
      · simp [h]
      · simp only [h, if_neg]
        right
        simpa [h] using hy
    · intro t ht
      simp only [updTransactionsByOrder, updWithdrawals, List.mem_map] at ht
      obtain ⟨y, hy, rfl⟩ := ht
      by_cases h : (y.orderId == wd.orderId) = true
      · simp [h]
      · right
        simpa [h] using hy

/-- Witness for C8 at a concrete state: a non-success payout callback for
withdrawal `W-1` reverts it and its ledger entry to Pending. -/
theorem c8_witness :
    (KytaPayoutWebhookHandler dbPayout "W-1" "Failed").1.withdrawals.map
        (fun x => x.status) = ["Pending"] ∧
    (KytaPayoutWebhookHandler dbPayout "W-1" "Failed").1.transactions.map
        (fun t => t.status) = ["Pending"] := by
  have h := c8_payout_webhook_revert dbPayout "W-1" "Failed" (by decide)
  have h2 := h.2 (by decide) wdPending (by decide)
  refine ⟨?_, ?_⟩
  · rw [h2.1]; decide
  · rw [h2.2.1]; decide

/-- C10 counterexample: a purchase webhook delivery whose callback carries
an empty gateway id is answered "Ignored" (investment not Pending) and does
mutate the Payment row's status, but does NOT overwrite the stored gateway
reference id (it stays `"OLD"`), refuting the claim that every delivery
overwrites the reference id before the Pending check. -/
theorem c10_counterexample :
    (KytaWebhookHandler dbDup "REF1" "success" "" 0).2 = "Ignored" ∧
    (KytaWebhookHandler dbDup "REF1" "success" "" 0).1.payments.map
      (fun p => p.referenceId) = [some "OLD"] ∧
    (KytaWebhookHandler dbDup "REF1" "success" "" 0).1.payments.map
      (fun p => p.status) = ["Success"] := by
  refine ⟨?_, ?_, ?_⟩ <;> decide

/-- C10 (amended): for every purchase webhook delivery, the handler updates
the Payment row's status (to Success or Failed) before checking whether the
investment is still Pending, and overwrites its gateway reference id
whenever the callback carries a non-empty id; even a duplicate webhook
answered with "Ignored" mutates the Payment row, while the Investment,
Transaction, and User rows remain unchanged in that ignored case. -/
theorem c10_payment_mutated_before_pending_check (db : DB)
    (ref st pid : String) (now : ℤ) (p : Payment) (i : Investment)
    (href : (strTrim ref) ≠ "") (hpid : (strTrim pid) ≠ "")
    (hp : findPaymentByOrder db (strTrim ref) = some p)
    (hi : findInvestmentById db p.investmentId = some i)
    (hnp : i.status ≠ "Pending") :
    (KytaWebhookHandler db ref st pid now).1.payments =
      db.payments.map (fun q => if q.id == p.id then
        { q with referenceId := some (strTrim pid),
                 status := if strUpper (strTrim st) == "SUCCESS" ||
                     strUpper (strTrim st) == "PAID" ||
                     strUpper (strTrim st) == "COMPLETED"
                   then "Success" else "Failed" } else q) ∧
    (KytaWebhookHandler db ref st pid now).1.users = db.users ∧
    (KytaWebhookHandler db ref st pid now).1.investments = db.investments ∧
    (KytaWebhookHandler db ref st pid now).1.transactions = db.transactions ∧
    (KytaWebhookHandler db ref st pid now).2 = "Ignored" := by
  have h1 : ((strTrim ref) == "") = false := by simp [href]
  have h2 : ((strTrim pid) != "") = true := by simp [hpid]
  have h3 : (i.status != "Pending") = true := by simp [hnp]
  have hi2 : findInvestmentById
      (updPayments db p.id (fun q =>
        { q with
          referenceId := if (strTrim pid) != "" then some (strTrim pid) else q.referenceId,
          status := if strUpper (strTrim st) == "SUCCESS" || strUpper (strTrim st) == "PAID" ||
              strUpper (strTrim st) == "COMPLETED" then "Success" else "Failed" }))
      p.investmentId = some i := hi
  have hres : KytaWebhookHandler db ref st pid now =
      (updPayments db p.id (fun q =>
        { q with
          referenceId := if (strTrim pid) != "" then some (strTrim pid) else q.referenceId,
          status := if strUpper (strTrim st) == "SUCCESS" || strUpper (strTrim st) == "PAID" ||
              strUpper (strTrim st) == "COMPLETED" then "Success" else "Failed" }),
       "Ignored") := by
    unfold KytaWebhookHandler
    simp only [h1, Bool.false_eq_true, if_false, hp, hi2, h3, if_true]
  rw [hres]
  refine ⟨?_, rfl, rfl, rfl, rfl⟩
  simp only [updPayments]
  apply List.map_congr_left
  intro q _
  by_cases h : (q.id == p.id) = true <;> simp [h, h2]

/-- Witness for the amended C10 at a concrete state: a duplicate success
delivery with a fresh gateway id is answered Ignored yet rewrites the
payment row, leaving the other tables unchanged. -/
theorem c10_witness :
    (KytaWebhookHandler dbDup "REF1" "paid" "NEW" 0).2 = "Ignored" ∧
    (KytaWebhookHandler dbDup "REF1" "paid" "NEW" 0).1.investments =
      dbDup.investments ∧
    (KytaWebhookHandler dbDup "REF1" "paid" "NEW" 0).1.payments.map
      (fun p => p.referenceId) = [some "NEW"] := by
  have h := c10_payment_mutated_before_pending_check dbDup "REF1" "paid" "NEW" 0
    payRef1 invRunning (by decide) (by decide) (by decide) (by decide) (by decide)
  refine ⟨h.2.2.2.2, h.2.2.1, ?_⟩
  rw [h.1]
  decide

/-- House payout destination configured in `payment_settings`. -/
def psHouse : PaymentSettings :=
  { id := 1, bankName := "Bank BCA", bankCode := "BCA",
    accountNumber := "1234567890", accountName := "StoneForm Admin",
    withdrawAmount := 50000, wishlist := [1] }

def baAlice : BankAccount :=
  { id := 3, userId := 7, bankId := 2, accountName := "Alice",
    accountNumber := "555000111" }

def bankMandiri : Bank := { id := 2, name := "Bank Mandiri", code := "MANDIRI" }

def wdAlice : Withdrawal :=
  { id := 9, userId := 7, bankAccountId := 3, amount := 60000,
    charge := 2500, finalAmount := 57500, orderId := "W-9",
    status := "Pending" }

/-- C9 counterexample: with the house settings configured (house account
name "StoneForm Admin"), a maskable withdrawal (user 7 not exempt, amount
60000 above the 50000 threshold) is displayed and paid out with the house
bank and house account **number**, but with the user's real account name
"Alice" — the house account name is never substituted, refuting the claim
that the policy substitutes "the house bank account and account name in
place of the user's real linked account". -/
theorem c9_counterexample :
    getWithdrawalsMaskedFields (some psHouse) 7 60000 "Bank Mandiri" "Alice"
        "555000111" = ("Bank BCA", "Alice", "1234567890") ∧
    approveWithdrawalDestination (some psHouse) wdAlice baAlice
        (some bankMandiri) = ("BCA", "1234567890", "Alice") ∧
    psHouse.accountName ≠ "Alice" := by
  refine ⟨?_, ?_, ?_⟩ <;> decide

/-- C9 (amended): for every withdrawal whose amount meets the masking
threshold and whose user is not on the exemption list, the masking policy
substitutes the house bank (its name at read time, its code at approval)
and the house account number in place of the user's linked account, while
retaining the user's real account name; the substituted account number and
the retained account name applied to the read-time display
(`GetWithdrawals`) are identical to those of the payout destination sent
to the gateway at approval (`ApproveWithdrawal`). -/
theorem c9_masking_read_equals_payout (ps : PaymentSettings)
    (wd : Withdrawal) (ba : BankAccount) (bank : Option Bank) (bn : String)
    (hwl : isUserInWishlist ps wd.userId = false)
    (hthr : ps.withdrawAmount ≤ wd.amount) :
    getWithdrawalsMaskedFields (some ps) wd.userId wd.amount bn
        ba.accountName ba.accountNumber
      = (ps.bankName, ba.accountName, ps.accountNumber) ∧
    approveWithdrawalDestination (some ps) wd ba bank
      = (ps.bankCode, ps.accountNumber, ba.accountName) ∧
    (getWithdrawalsMaskedFields (some ps) wd.userId wd.amount bn
        ba.accountName ba.accountNumber).2.2
      = (approveWithdrawalDestination (some ps) wd ba bank).2.1 ∧
    (getWithdrawalsMaskedFields (some ps) wd.userId wd.amount bn
        ba.accountName ba.accountNumber).2.1
      = (approveWithdrawalDestination (some ps) wd ba bank).2.2 := by
  have h1 : getWithdrawalsMaskedFields (some ps) wd.userId wd.amount bn
      ba.accountName ba.accountNumber
      = (ps.bankName, ba.accountName, ps.accountNumber) := by
    unfold getWithdrawalsMaskedFields
    simp [hwl, hthr]
  have h2 : approveWithdrawalDestination (some ps) wd ba bank
      = (ps.bankCode, ps.accountNumber, ba.accountName) := by
    unfold approveWithdrawalDestination
    simp [hwl, hthr]
  exact ⟨h1, h2, by rw [h1, h2], by rw [h1, h2]⟩

/-- Witness for the amended C9 at the concrete house configuration. -/
theorem c9_witness :
    getWithdrawalsMaskedFields (some psHouse) wdAlice.userId wdAlice.amount
        "Bank Mandiri" baAlice.accountName baAlice.accountNumber
      = (psHouse.bankName, baAlice.accountName, psHouse.accountNumber) ∧
    approveWithdrawalDestination (some psHouse) wdAlice baAlice
        (some bankMandiri)
      = (psHouse.bankCode, psHouse.accountNumber, baAlice.accountName) := by
  have h := c9_masking_read_equals_payout psHouse wdAlice baAlice
    (some bankMandiri) "Bank Mandiri" (by decide) (by decide)
  exact ⟨h.1, h.2.1⟩

/-! ### Purchase-creation sample data -/

def catRouter : Category :=
  { id := 1, profitType := "locked", status := "Active", name := "Router" }

def catMifi : Category :=
  { id := 2, profitType := "unlocked", status := "Active", name := "Mifi" }

def prodR1 : Product :=
  { id := 1, categoryId := 1, name := "R1", amount := 200000,
    dailyProfit := 8000, duration := 30, requiredVIP := 0,
    purchaseLimit := 0, status := "Active" }

/-- A product priced above the QRIS maximum. -/
def prodBig : Product :=
  { id := 2, categoryId := 1, name := "Big", amount := 20000000,
    dailyProfit := 800000, duration := 30, requiredVIP := 0,
    purchaseLimit := 0, status := "Active" }

def userBuyer : User :=
  { id := 1, balance := 0, level := some 0, totalInvest := 0,
    totalInvestVIP := 0, reffBy := some 2, spinTicket := none,
    investmentStatus := "Inactive" }

def userReferrer : User :=
  { id := 2, balance := 1000, level := some 1, totalInvest := 0,
    totalInvestVIP := 0, reffBy := none, spinTicket := some 4,
    investmentStatus := "Active" }

def dbCreate : DB :=
  { users := [userBuyer, userReferrer],
    categories := [catRouter, catMifi], products := [prodR1, prodBig],
    investments := [], payments := [], transactions := [],
    withdrawals := [], paymentSettings := none, ordCounter := 0,
    nextInvId := 1, nextPayId := 1 }

def reqQris : CreateReq :=
  { productId := 1, paymentMethod := "qris", paymentChannel := "" }

def chargeOk : ChargeResp :=
  { qrString := "QRDATA", accountNumber := "", checkoutURL := "https://pay",
    expiresAt := some 900 }

/-- C6: for every purchase request, if any outbound gateway call fails
(access token or charge creation), the operation returns an error and no
Investment, Payment, Transaction (or any other) row is persisted. -/
theorem c6_gateway_failure_persists_nothing (db : DB) (uid : ℕ)
    (req : CreateReq) (tokenRes : Option String)
    (chargeRes : Option ChargeResp) (now : ℤ)
    (h : tokenRes = none ∨ chargeRes = none) :
    (∃ m, (CreateInvestmentHandler db uid req tokenRes chargeRes now).2.2 =
      CreateResult.err m) ∧
    sameRows (CreateInvestmentHandler db uid req tokenRes chargeRes now).1 db := by
  rcases h with h | h <;> subst h <;>
    · unfold CreateInvestmentHandler sameRows
      dsimp only
      repeat' split
      all_goals exact ⟨⟨_, rfl⟩, rfl, rfl, rfl, rfl, rfl⟩

/-- Witness for C6: a token failure on an otherwise valid purchase leaves
the concrete state's rows untouched. -/
theorem c6_witness :
    (∃ m, (CreateInvestmentHandler dbCreate 1 reqQris none (some chargeOk) 0).2.2 =
      CreateResult.err m) ∧
    sameRows (CreateInvestmentHandler dbCreate 1 reqQris none (some chargeOk) 0).1
      dbCreate :=
  c6_gateway_failure_persists_nothing dbCreate 1 reqQris none (some chargeOk) 0
    (Or.inl rfl)

/-- A purchase attempt rejected with an error, without any outbound
gateway call and without persisting anything. -/
def rejectedNoCall (db : DB) (r : DB × List GatewayCall × CreateResult) : Prop :=
  r.2.1 = [] ∧ sameRows r.1 db ∧ ∃ m, r.2.2 = CreateResult.err m

/-- A purchase attempt rejected with an error after the access-token call
but before any charge call, without persisting anything. -/
def rejectedAfterToken (db : DB) (r : DB × List GatewayCall × CreateResult) : Prop :=
  r.2.1 = [GatewayCall.token] ∧ sameRows r.1 db ∧ ∃ m, r.2.2 = CreateResult.err m

/-- C7 counterexample: a QRIS purchase of a product priced 20,000,000
(above the 10,000,000 QRIS maximum) passes every earlier validation, so the
handler performs the access-token gateway call **before** rejecting on the
amount bound — refuting the claim that every validation failure (including
the QRIS amount bound) is rejected before any gateway call is made. -/
theorem c7_counterexample :
    (CreateInvestmentHandler dbCreate 1
        { productId := 2, paymentMethod := "QRIS", paymentChannel := "" }
        (some "tok") (some chargeOk) 0).2.1 = [GatewayCall.token] ∧
    (CreateInvestmentHandler dbCreate 1
        { productId := 2, paymentMethod := "QRIS", paymentChannel := "" }
        (some "tok") (some chargeOk) 0).2.2 =
      CreateResult.err
        "Jumlah pembayaran maksimal menggunakan QRIS adalah Rp 10.000.000" := by
  exact ⟨by decide, by decide⟩

set_option maxHeartbeats 1600000 in
/-- C7 (amended): purchase validation failures never persist anything; the
payment-method, channel, product-active, VIP-level and purchase-limit
checks reject before any gateway call, while the QRIS-maximum and
bank-transfer-minimum amount checks reject after the access-token call but
before any charge call. -/
theorem c7_validation_rejects_before_persistence (db : DB) (uid : ℕ)
    (req : CreateReq) (tokenRes : Option String)
    (chargeRes : Option ChargeResp) (now : ℤ)
    (r : DB × List GatewayCall × CreateResult)
    (hr : r = CreateInvestmentHandler db uid req tokenRes chargeRes now) :
    (strUpper (strTrim req.paymentMethod) ≠ "QRIS" ∧
       strUpper (strTrim req.paymentMethod) ≠ "BANK" → rejectedNoCall db r) ∧
    (strUpper (strTrim req.paymentMethod) = "BANK" ∧
       allowedBanks.contains (strUpper (strTrim req.paymentChannel)) = false →
       rejectedNoCall db r) ∧
    (db.products.find? (fun p => p.id == req.productId && p.status == "Active")
        = none → rejectedNoCall db r) ∧
    (∀ product,
      db.products.find? (fun p => p.id == req.productId && p.status == "Active")
          = some product →
      ∀ u, findUser db uid = some u →
      ((u.level.getD 0 : ℤ) < goUint64 product.requiredVIP →
        rejectedNoCall db r) ∧
      (0 < product.purchaseLimit ∧
         product.purchaseLimit ≤ investPurchaseCount db uid product.id →
        rejectedNoCall db r) ∧
      (∀ c, findCategory db product.categoryId = some c →
        ¬(u.level.getD 0 : ℤ) < goUint64 product.requiredVIP →
        ¬(0 < product.purchaseLimit ∧
            product.purchaseLimit ≤ investPurchaseCount db uid product.id) →
        ∀ tok, tokenRes = some tok →
        ((strUpper (strTrim req.paymentMethod) = "QRIS" →
            10000000 < product.amount → rejectedAfterToken db r) ∧
         (strUpper (strTrim req.paymentMethod) = "BANK" →
            allowedBanks.contains (strUpper (strTrim req.paymentChannel)) = true →
            product.amount < 10000 → rejectedAfterToken db r)))) := by
  subst hr
  unfold CreateInvestmentHandler rejectedNoCall rejectedAfterToken sameRows
  dsimp only
  refine ⟨?_, ?_, ?_, ?_⟩
  · intro ⟨h1, h2⟩
    simp [h1, h2]
  · intro ⟨h1, h2⟩
    have h2m : strUpper (strTrim req.paymentChannel) ∉ allowedBanks := by
      simpa using h2
    rw [h1]
    simp [h2m]
  · intro h1
    rw [h1]
    dsimp only
    repeat' split
    all_goals exact ⟨rfl, ⟨rfl, rfl, rfl, rfl, rfl⟩, _, rfl⟩
  · intro product hprod u hu
    rw [hprod, hu]
    dsimp only
    refine ⟨?_, ?_, ?_⟩
    · intro hvip
      repeat' split
      all_goals
        first
        | exact ⟨rfl, ⟨rfl, rfl, rfl, rfl, rfl⟩, _, rfl⟩
        | simp_all
    · intro hlim
      repeat' split
      all_goals
        first
        | exact ⟨rfl, ⟨rfl, rfl, rfl, rfl, rfl⟩, _, rfl⟩
        | (simp_all
           repeat' split
           all_goals exact ⟨rfl, ⟨rfl, rfl, rfl, rfl, rfl⟩, _, rfl⟩)
    · intro c hc hnvip hnlim tok htok
      rw [hc, htok]
      dsimp only
      have hL : (decide (0 < product.purchaseLimit) &&
          decide (product.purchaseLimit ≤ investPurchaseCount db uid product.id))
          = false := by
        by_cases h0 : 0 < product.purchaseLimit
        · have h1 : ¬product.purchaseLimit ≤ investPurchaseCount db uid product.id :=
            fun h1 => hnlim ⟨h0, h1⟩
          simp [h1]
        · simp [h0]
      constructor
      · intro hq hamt
        have hA : (strUpper (strTrim req.paymentMethod) != "QRIS" &&
            strUpper (strTrim req.paymentMethod) != "BANK") = false := by
          simp [hq]
        have hB : (strUpper (strTrim req.paymentMethod) == "BANK" &&
            !allowedBanks.contains (strUpper (strTrim req.paymentChannel)))
            = false := by simp [hq]
        have hQ : (strUpper (strTrim req.paymentMethod) == "QRIS" &&
            decide (10000000 < product.amount)) = true := by simp [hq, hamt]
        simp only [hA, hB, hQ, hL, Bool.false_eq_true, if_false, if_true,
          if_neg hnvip]
        simp
      · intro hb hch hamt
        have hA : (strUpper (strTrim req.paymentMethod) != "QRIS" &&
            strUpper (strTrim req.paymentMethod) != "BANK") = false := by
          simp [hb]
        have hchm : strUpper (strTrim req.paymentChannel) ∈ allowedBanks := by
          simpa using hch
        have hB : (strUpper (strTrim req.paymentMethod) == "BANK" &&
            !allowedBanks.contains (strUpper (strTrim req.paymentChannel)))
            = false := by simp [hchm]
        have hQ : (strUpper (strTrim req.paymentMethod) == "QRIS" &&
            decide (10000000 < product.amount)) = false := by simp [hb]
        have hM : (strUpper (strTrim req.paymentMethod) == "BANK" &&
            decide (product.amount < 10000)) = true := by simp [hb, hamt]
        simp only [hA, hB, hQ, hM, hL, Bool.false_eq_true, if_false, if_true,
          if_neg hnvip]
        simp

/-- C1: running the daily settlement scheduler twice in immediate
succession (no time elapsed: both runs at the same `now`) leaves the state
fully unchanged by the second run — in particular every investment's
totalPaid and totalReturned and every user's balance — and the second run
processes 0 investments: the first run advances nextReturnAt to
now + one period inside the same atomic step as the payout, so the second
scan selects nothing already settled, and rows that failed to settle fail
identically again. -/
theorem c1_cron_idempotent (db : DB) (now : ℤ) :
    CronDailyReturnsHandler (CronDailyReturnsHandler db now).1 now
      = ((CronDailyReturnsHandler db now).1, 0) := by
  have hfails : ∀ j ∈ (CronDailyReturnsHandler db now).1.investments,
      dueFilter now j = true →
      lookupFails (CronDailyReturnsHandler db now).1 j := by
    unfold CronDailyReturnsHandler
    dsimp only
    exact cronFold_due_fails now (db.investments.filter (dueFilter now)) db 0
      (fun j hj hdue => Or.inl (List.mem_filter.mpr ⟨hj, hdue⟩))
  conv_lhs => unfold CronDailyReturnsHandler
  apply cronFold_noop
  intro i hi
  rw [settleOne_eq_none_iff]
  have hmem := List.mem_filter.mp hi
  exact hfails i hmem.1 hmem.2

/-- C2: delivering the purchase webhook a second time with a success status
for the same orderId is a no-op acknowledged as already processed: after the
first successful delivery flips the investment to Running, the second
delivery returns the state unchanged with response "Ignored", so the
balance, totalInvest/totalInvestVIP, VIP-level and referral-bonus effects
are applied exactly once. -/
theorem c2_duplicate_webhook_noop (db : DB) (ref st pid : String)
    (now now2 : ℤ) (p : Payment) (i : Investment)
    (href : strTrim ref ≠ "")
    (hsucc : (strUpper (strTrim st) == "SUCCESS" ||
      strUpper (strTrim st) == "PAID" ||
      strUpper (strTrim st) == "COMPLETED") = true)
    (hp : findPaymentByOrder db (strTrim ref) = some p)
    (hi : findInvestmentById db p.investmentId = some i)
    (hpend : i.status = "Pending") :
    KytaWebhookHandler (KytaWebhookHandler db ref st pid now).1 ref st pid now2
      = ((KytaWebhookHandler db ref st pid now).1, "Ignored") := by
  have hrefb : (strTrim ref == "") = false := by simp [href]
  have hpendb : (i.status != "Pending") = false := by simp [hpend]
  set F : Payment → Payment := fun q =>
    { q with
      referenceId := if strTrim pid != "" then some (strTrim pid)
        else q.referenceId,
      status := "Success" } with hF
  have h1 : KytaWebhookHandler db ref st pid now =
      (webhookConfirm (updPayments db p.id F) i now, "OK") := by
    unfold KytaWebhookHandler
    dsimp only
    simp only [hrefb, Bool.false_eq_true, if_false, hp,
      findInvestmentById_updPayments, hi, hpendb, hsucc, if_true, hF]
  set db1 := updPayments db p.id F with hdb1
  set dbA := webhookConfirm db1 i now with hdbA
  have hpayA : dbA.payments =
      db.payments.map (fun q => if q.id == p.id then F q else q) := by
    rw [hdbA, webhookConfirm_payments, hdb1]
    simp
  have hfindA : findPaymentByOrder dbA (strTrim ref) = some (F p) := by
    unfold findPaymentByOrder
    rw [hpayA, find_map_congr _ _ _
      (fun a => by by_cases h : (a.id == p.id) = true <;> simp [h, hF])]
    rw [show db.payments.find? (fun q => q.orderId == strTrim ref) = some p
      from hp]
    simp
  have hIid : i.id = p.investmentId := (mem_of_findInvestmentById hi).2
  have hinvA : findInvestmentById dbA p.investmentId =
      some { i with status := "Running", lastReturnAt := none,
                    nextReturnAt := some (now + oneDay) } := by
    unfold findInvestmentById
    rw [show dbA.investments = db1.investments.map (fun r =>
        if r.id == i.id then
          { r with status := "Running", lastReturnAt := none,
                   nextReturnAt := some (now + oneDay) } else r)
      from webhookConfirm_investments db1 i now]
    rw [show db1.investments = db.investments from rfl]
    rw [find_map_congr _ _ _
      (fun a => by by_cases h : (a.id == i.id) = true <;> simp [h])]
    rw [show db.investments.find? (fun r => r.id == p.investmentId) = some i
      from hi]
    simp
  have hFF : ∀ q, F (F q) = F q := by
    intro q
    by_cases hq : (strTrim pid != "") = true <;> simp [hF, hq]
  have h3 : updPayments dbA p.id F = dbA := by
    have hmap : dbA.payments.map (fun q => if q.id == p.id then F q else q)
        = dbA.payments := by
      rw [hpayA, List.map_map]
      apply List.map_congr_left
      intro a _
      by_cases h : (a.id == p.id) = true <;>
        simp [Function.comp, h, hFF]
    unfold updPayments
    rw [hmap]
  have h2 : KytaWebhookHandler dbA ref st pid now2 = (dbA, "Ignored") := by
    unfold KytaWebhookHandler
    dsimp only
    simp only [hrefb, Bool.false_eq_true, if_false, hfindA]
    have hfid : (F p).id = p.id := rfl
    have hfinv : (F p).investmentId = p.investmentId := rfl
    simp only [findInvestmentById_updPayments, hfid, hfinv, hinvA]
    have hrun : (("Running" : String) != "Pending") = true := by decide
    simp only [hrun, if_true, hF]
    rw [show (fun q => { q with
        referenceId := if strTrim pid != "" then some (strTrim pid)
          else q.referenceId,
        status := if (strUpper (strTrim st) == "SUCCESS" ||
            strUpper (strTrim st) == "PAID" ||
            strUpper (strTrim st) == "COMPLETED") = true then "Success"
          else "Failed" } : Payment → Payment) = F by
      funext q
      simp [hsucc, hF]]
    rw [h3]
  rw [h1]
  exact h2

/-- A Pending investment with its payment and purchase ledger entry. -/
def invPending : Investment :=
  { id := 1, userId := 1, productId := 1, categoryId := 1, amount := 200000,
    dailyProfit := 8000, duration := 30, totalPaid := 0, totalReturned := 0,
    lastReturnAt := none, nextReturnAt := none, orderId := "P-1",
    status := "Pending" }

def payP1 : Payment :=
  { id := 1, investmentId := 1, referenceId := some "P-1", orderId := "P-1",
    paymentMethod := some "QRIS", paymentChannel := none,
    paymentCode := some "QR", paymentLink := none, status := "Pending",
    expiredAt := some 900 }

def txP1 : Transaction :=
  { userId := 1, amount := 200000, charge := 0, orderId := "P-1",
    transactionFlow := "credit", transactionType := "investment",
    message := none, status := "Pending" }

def dbPend : DB :=
  { users := [userBuyer, userReferrer],
    categories := [catRouter, catMifi], products := [prodR1, prodBig],
    investments := [invPending], payments := [payP1],
    transactions := [txP1],
    withdrawals := [], paymentSettings := none, ordCounter := 0,
    nextInvId := 2, nextPayId := 2 }

/-- Witness for C2: the concrete duplicate success delivery is answered
"Ignored" and leaves the state of the first delivery untouched. -/
theorem c2_witness :
    KytaWebhookHandler (KytaWebhookHandler dbPend "P-1" "success" "GW-1" 100).1
        "P-1" "success" "GW-1" 200
      = ((KytaWebhookHandler dbPend "P-1" "success" "GW-1" 100).1, "Ignored") :=
  c2_duplicate_webhook_noop dbPend "P-1" "success" "GW-1" 100 200 payP1
    invPending (by decide) (by decide) (by decide) (by decide) (by decide)

/-- C5: when payment confirmation flips a Pending investment to Running and
the investor has a referrer, the referrer's balance increases by exactly
30% of the investment amount (the rounding is exact for well-formed
amounts, per the last-but-one conjunct), recorded via a single debit
Transaction of type "team", and the referrer's spin-ticket count increases
by 1 (initialized to 1 if unset) iff the amount is at least 100,000; the
settlement scheduler, by contrast, never creates a "team" entry and never
touches spin tickets. -/
theorem c5_referral_bonus (db : DB) (ref st pid : String) (now : ℤ)
    (p : Payment) (i : Investment) (u lvl1 : User) (rid : ℕ)
    (href : strTrim ref ≠ "")
    (hsucc : (strUpper (strTrim st) == "SUCCESS" ||
      strUpper (strTrim st) == "PAID" ||
      strUpper (strTrim st) == "COMPLETED") = true)
    (hp : findPaymentByOrder db (strTrim ref) = some p)
    (hi : findInvestmentById db p.investmentId = some i)
    (hpend : i.status = "Pending")
    (hu : findUser db i.userId = some u)
    (hr : u.reffBy = some rid)
    (hl : findUser db rid = some lvl1) :
    ((findUser (KytaWebhookHandler db ref st pid now).1 rid).map
        User.balance =
      some (lvl1.balance + round3 (i.amount * (30 / 100)))) ∧
    ((findUser (KytaWebhookHandler db ref st pid now).1 rid).map
        User.spinTicket =
      some (if 100000 ≤ i.amount then
         (match lvl1.spinTicket with
          | none => some 1
          | some n => some (n + 1))
         else lvl1.spinTicket)) ∧
    (KytaWebhookHandler db ref st pid now).1.transactions =
      db.transactions.map (fun t => if t.orderId == i.orderId then
        { t with status := "Success" } else t) ++
      [{ userId := rid, amount := round3 (i.amount * (30 / 100)),
         charge := 0, orderId := genOrderID rid db.ordCounter,
         transactionFlow := "debit", transactionType := "team",
         message := some "Bonus rekomendasi investor",
         status := "Success" }] ∧
    (isMoney (i.amount * (30 / 100)) →
      round3 (i.amount * (30 / 100)) = i.amount * (30 / 100)) ∧
    (∀ db2 : DB, ∀ now2 : ℤ,
      (∀ t ∈ (CronDailyReturnsHandler db2 now2).1.transactions,
        t ∈ db2.transactions ∨ t.transactionType = "return") ∧
      (CronDailyReturnsHandler db2 now2).1.users.map User.spinTicket =
        db2.users.map User.spinTicket) := by
  have hrefb : (strTrim ref == "") = false := by simp [href]
  have hpendb : (i.status != "Pending") = false := by simp [hpend]
  set F : Payment → Payment := fun q =>
    { q with
      referenceId := if strTrim pid != "" then some (strTrim pid)
        else q.referenceId,
      status := "Success" } with hF
  have h1 : KytaWebhookHandler db ref st pid now =
      (webhookConfirm (updPayments db p.id F) i now, "OK") := by
    unfold KytaWebhookHandler
    dsimp only
    simp only [hrefb, Bool.false_eq_true, if_false, hp,
      findInvestmentById_updPayments, hi, hpendb, hsucc, if_true, hF]
  have hu1 : findUser (updPayments db p.id F) i.userId = some u := hu
  have hl1 : findUser (updPayments db p.id F) rid = some lvl1 := hl
  have spec := webhookConfirm_referral (updPayments db p.id F) i now u lvl1
    rid hu1 hr hl1
  rw [h1]
  exact ⟨spec.1, spec.2.1, spec.2.2,
    fun hm => round3_eq_self hm,
    fun db2 now2 => cron_no_team_bonus db2 now2⟩

/-- Witness for C5: confirming the concrete 200,000 purchase credits the
referrer (user 2) 60,000 (balance 1000 → 61000) and advances the
spin-ticket counter from 4 to 5. -/
theorem c5_witness :
    ((findUser (KytaWebhookHandler dbPend "P-1" "success" "GW-1" 100).1 2).map
        User.balance = some 61000) ∧
    ((findUser (KytaWebhookHandler dbPend "P-1" "success" "GW-1" 100).1 2).map
        User.spinTicket = some (some 5)) := by
  have h := c5_referral_bonus dbPend "P-1" "success" "GW-1" 100 payP1
    invPending userBuyer userReferrer 2 (by decide) (by decide) (by decide)
    (by decide) (by decide) (by decide) (by decide) (by decide)
  have hb : round3 (invPending.amount * (30 / 100)) = 60000 := by
    rw [show invPending.amount * ((30 : ℚ) / 100) = 60000 by
      norm_num [invPending]]
    exact round3_eq_self ⟨by norm_num, by norm_num⟩
  constructor
  · rw [h.1, hb]
    norm_num [userReferrer]
  · rw [h.2.1]
    norm_num [invPending, userReferrer]

/-- A locked-category Running investment one period away from completion. -/
def invLocked : Investment :=
  { id := 5, userId := 1, productId := 1, categoryId := 1, amount := 200000,
    dailyProfit := 8000, duration := 30, totalPaid := 29,
    totalReturned := 232000, lastReturnAt := some 0,
    nextReturnAt := some 1440, orderId := "L-1", status := "Running" }

def dbSettle : DB :=
  { users := [userBuyer, userReferrer],
    categories := [catRouter, catMifi], products := [prodR1, prodBig],
    investments := [invLocked], payments := [], transactions := [],
    withdrawals := [], paymentSettings := none, ordCounter := 0,
    nextInvId := 6, nextPayId := 1 }

/-- C3: settling a locked-category investment creates no ledger entry (and
changes no balance) on any non-completing period, and on the completing
period credits the entire accumulated profit `dailyProfit × durationPeriods`
in exactly one Transaction plus the principal `amount` in exactly one
separate Transaction — locked profit is never paid incrementally. -/
theorem c3_locked_profit_single_payout (db : DB) (inv : Investment)
    (now : ℤ) (u : User) (c : Category) (prod : Product)
    (hu : findUser db inv.userId = some u)
    (hc : findCategory db inv.categoryId = some c)
    (hp : findProduct db inv.productId = some prod)
    (hlocked : c.profitType = "locked")
    (hdue : inv.totalPaid < inv.duration)
    (hm : isMoney (inv.dailyProfit * (inv.duration : ℚ))) :
    (inv.totalPaid + 1 < inv.duration →
      ∃ d, settleOne db inv now = some d ∧
        d.transactions = db.transactions ∧ d.users = db.users) ∧
    (inv.totalPaid + 1 = inv.duration →
      ∃ d, settleOne db inv now = some d ∧
        d.transactions = db.transactions ++
          [{ userId := inv.userId,
             amount := inv.dailyProfit * (inv.duration : ℚ), charge := 0,
             orderId := genOrderID inv.userId db.ordCounter,
             transactionFlow := "debit", transactionType := "return",
             message := some ("Total profit investasi produk " ++
               prod.name ++ " selesai"),
             status := "Success" },
           { userId := inv.userId, amount := inv.amount, charge := 0,
             orderId := genOrderID inv.userId (db.ordCounter + 1),
             transactionFlow := "debit", transactionType := "return",
             message := some ("Pengembalian modal investasi produk " ++
               prod.name),
             status := "Success" }]) := by
  have hup : (c.profitType == "unlocked") = false := by simp [hlocked]
  have hlk : (c.profitType == "locked") = true := by simp [hlocked]
  constructor
  · intro hlt
    have hnd : ¬inv.duration ≤ inv.totalPaid + 1 := by omega
    have hld : (c.profitType == "locked" &&
        decide (inv.duration ≤ inv.totalPaid + 1)) = false := by
      simp [hnd]
    unfold settleOne
    rw [hu, hc, hp]
    dsimp only
    simp only [hup, hld, Bool.false_eq_true, if_false, if_neg hnd]
    exact ⟨_, rfl, rfl, rfl⟩
  · intro heq
    have hnd : inv.duration ≤ inv.totalPaid + 1 := by omega
    have hld : (c.profitType == "locked" &&
        decide (inv.duration ≤ inv.totalPaid + 1)) = true := by
      simp [hlocked, hnd]
    unfold settleOne
    rw [hu, hc, hp]
    dsimp only
    simp only [hup, hld, Bool.false_eq_true, if_false, if_true, if_pos hnd]
    refine ⟨_, rfl, ?_⟩
    simp only [payAndRecord, genOrder, insertTransaction, updUsers,
      updInvestments, round3_eq_self hm]
    simp [List.append_assoc]

/-- Witness for C3 at a concrete completing settlement: exactly the whole
locked profit (8000 × 30 = 240000) and the principal (200000) are credited,
in two separate ledger entries. -/
theorem c3_witness :
    ∃ d, settleOne dbSettle invLocked 2000 = some d ∧
      d.transactions = dbSettle.transactions ++
        [{ userId := invLocked.userId, amount := 240000, charge := 0,
           orderId := genOrderID invLocked.userId dbSettle.ordCounter,
           transactionFlow := "debit", transactionType := "return",
           message := some ("Total profit investasi produk " ++
             prodR1.name ++ " selesai"),
           status := "Success" },
         { userId := invLocked.userId, amount := invLocked.amount, charge := 0,
           orderId := genOrderID invLocked.userId (dbSettle.ordCounter + 1),
           transactionFlow := "debit", transactionType := "return",
           message := some ("Pengembalian modal investasi produk " ++
             prodR1.name),
           status := "Success" }] := by
  have h := c3_locked_profit_single_payout dbSettle invLocked 2000 userBuyer
    catRouter prodR1 (by decide) (by decide) (by decide) (by decide)
    (by decide) (by unfold isMoney; constructor <;> norm_num [invLocked])
  have h2 := h.2 (by decide)
  obtain ⟨d, hd, ht⟩ := h2
  exact ⟨d, hd, by rw [ht]; norm_num [invLocked]⟩

/-- Witness for the amended C7: the concrete over-limit QRIS purchase is
rejected with only the token call made and no rows persisted. -/
theorem c7_witness :
    rejectedAfterToken dbCreate
      (CreateInvestmentHandler dbCreate 1
        { productId := 2, paymentMethod := "QRIS", paymentChannel := "" }
        (some "tok") (some chargeOk) 0) := by
  have h := c7_validation_rejects_before_persistence dbCreate 1
    { productId := 2, paymentMethod := "QRIS", paymentChannel := "" }
    (some "tok") (some chargeOk) 0 _ rfl
  have h4 := h.2.2.2 prodBig (by decide) userBuyer (by decide)
  have h5 := h4.2.2 catRouter (by decide) (by decide) (by decide) "tok" rfl
  exact h5.1 (by decide) (by decide)

/-- The investment row persisted by the concrete successful purchase used
as the reachability witness below. -/
def invW : Investment :=
  { id := 1, userId := 1, productId := 1, categoryId := 1, amount := 200000,
    dailyProfit := 8000, duration := 30, totalPaid := 0, totalReturned := 0,
    lastReturnAt := none, nextReturnAt := none, orderId := genOrderID 1 0,
    status := "Pending" }

/-- C4: in every reachable state every investment satisfies
`0 ≤ totalPaid ≤ duration` and `status = Completed → totalPaid = duration`;
moreover the scheduler selects only rows with `totalPaid < duration`, each
settlement increments `totalPaid` by exactly one, and it marks the row
`Completed` exactly when the incremented `totalPaid` reaches `duration`. -/
theorem c4_counters_invariant (db : DB) (i j : Investment) (now : ℤ)
    (h : Reachable db) (hi : i ∈ db.investments)
    (hdue : dueFilter now j = true) :
    (0 ≤ i.totalPaid ∧ i.totalPaid ≤ i.duration ∧
      (i.status = "Completed" → i.totalPaid = i.duration)) ∧
    j.totalPaid < j.duration ∧
    (settleUpd j now j).totalPaid = j.totalPaid + 1 ∧
    ((settleUpd j now j).status = "Completed" ↔
      j.totalPaid + 1 = j.duration) := by
  obtain ⟨-, -, -, hinv⟩ := GoodDB_reachable h
  have hdue2 := hdue
  unfold dueFilter at hdue2
  rw [Bool.and_eq_true, Bool.and_eq_true] at hdue2
  obtain ⟨⟨hrun, -⟩, hlt⟩ := hdue2
  have hrun2 : j.status = "Running" := by simpa using hrun
  have hlt2 : j.totalPaid < j.duration := by simpa using hlt
  refine ⟨hinv i hi, hlt2, rfl, ?_⟩
  unfold settleUpd
  dsimp only
  constructor
  · intro hC
    split at hC
    · rename_i hle
      omega
    · rw [hrun2] at hC
      exact absurd hC (by decide)
  · intro hEq
    rw [if_pos (by omega)]

/-- Witness for C4 at a reachable state built by one successful purchase,
and at a concrete due row for the settlement-mechanics part. -/
theorem c4_witness :
    (0 ≤ invW.totalPaid ∧ invW.totalPaid ≤ invW.duration ∧
      (invW.status = "Completed" → invW.totalPaid = invW.duration)) ∧
    invRunning.totalPaid < invRunning.duration ∧
    (settleUpd invRunning 1440 invRunning).totalPaid =
      invRunning.totalPaid + 1 ∧
    ((settleUpd invRunning 1440 invRunning).status = "Completed" ↔
      invRunning.totalPaid + 1 = invRunning.duration) :=
  c4_counters_invariant
    (CreateInvestmentHandler dbCreate 1 reqQris (some "tok") (some chargeOk)
      0).1
    invW invRunning 1440
    (Reachable.create dbCreate 1 reqQris (some "tok") (some chargeOk) 0
      (Reachable.init dbCreate rfl (by decide)))
    (by decide) (by decide)

end Xinxun
